import Mathlib

/-!
Verification of the CodeBased extraction pipeline (src/codebased).

This file shallowly embeds the parts of the pipeline that the verified
properties are about:

* `hashlib.md5` / `hashlib.sha256` (as used by the source for name
  sanitisation, entity-ID derivation and content hashing) are implemented
  concretely over `Nat` byte lists;
* the intermediate representation (`ParsedEntity`, `ParsedRelationship`,
  `ParseResult` from `parsers/base.py`);
* file-type classification (`parsers/file_types.py`);
* entity-ID generation (`BaseParser._generate_entity_id`);
* the symbol registry, Pass-2 resolution, external-name sanitisation and
  the entity / relationship insert-query generation
  (`parsers/extractor.py`);
* the Python cyclomatic-complexity estimate (`parsers/python.py`);
* the JavaScript external-stub creation (`parsers/javascript.py`);
* change detection and the incremental update driver
  (`parsers/incremental.py`), together with a small property-graph store
  model for the delete pass.
-/

set_option maxRecDepth 16384

namespace CodeBased

/-! ## 32-bit helpers (machine integers as `Nat` mod `2^32`) -/

def M32 : Nat := 4294967296

def add32 (a b : Nat) : Nat := (a + b) % M32

def rotl32 (s x : Nat) : Nat :=
  let y := x % M32
  ((y <<< s) ||| (y >>> (32 - s))) % M32

def rotr32 (s x : Nat) : Nat :=
  let y := x % M32
  ((y >>> s) ||| (y <<< (32 - s))) % M32

def not32 (x : Nat) : Nat := 4294967295 ^^^ (x % M32)

/-- UTF-8 encoding of one Unicode scalar value (Python `str.encode()`). -/
def utf8Char (c : Nat) : List Nat :=
  if c < 128 then [c]
  else if c < 2048 then [192 + c / 64, 128 + c % 64]
  else if c < 65536 then [224 + c / 4096, 128 + (c / 64) % 64, 128 + c % 64]
  else [240 + c / 262144, 128 + (c / 4096) % 64, 128 + (c / 64) % 64, 128 + c % 64]

/-- UTF-8 bytes of a string (Python `s.encode('utf-8')`). -/
def utf8 (s : String) : List Nat :=
  (s.data.map (fun ch => utf8Char ch.toNat)).flatten

/-- Little-endian 8-byte encoding of `n % 2^64`. -/
def leBytes8 (n : Nat) : List Nat :=
  [n % 256, n / 256 % 256, n / 65536 % 256, n / 16777216 % 256,
   n / 4294967296 % 256, n / 1099511627776 % 256,
   n / 281474976710656 % 256, n / 72057594037927936 % 256]

/-- Big-endian 8-byte encoding of `n % 2^64`. -/
def beBytes8 (n : Nat) : List Nat := (leBytes8 n).reverse

/-- Merkle–Damgård padding shared by MD5 and SHA-256: a `0x80` byte, zeros
to 56 mod 64, then the 64-bit bit length (endianness differs per hash). -/
def mdPad (lenEnc : Nat → List Nat) (msg : List Nat) : List Nat :=
  let L := msg.length
  let k := (119 - L % 64) % 64
  msg ++ 128 :: List.replicate k 0 ++ lenEnc (8 * L)

/-- Split a byte list into 64-byte chunks (fuel-structural so that the
kernel can evaluate it; `fuel = l.length` always suffices). -/
def chunks64Fuel : Nat → List Nat → List (List Nat)
  | _, [] => []
  | 0, _ => []
  | Nat.succ f, l => l.take 64 :: chunks64Fuel f (l.drop 64)

def chunks64 (l : List Nat) : List (List Nat) := chunks64Fuel l.length l

/-- Group bytes into 32-bit words, big-endian (SHA-256). -/
def beWords : List Nat → List Nat
  | b0 :: b1 :: b2 :: b3 :: rest =>
      (((b0 * 256 + b1) * 256 + b2) * 256 + b3) :: beWords rest
  | _ => []

/-- Group bytes into 32-bit words, little-endian (MD5). -/
def leWords : List Nat → List Nat
  | b0 :: b1 :: b2 :: b3 :: rest =>
      (b0 + 256 * (b1 + 256 * (b2 + 256 * b3))) :: leWords rest
  | _ => []

def hexDigit (n : Nat) : Char :=
  if n < 10 then Char.ofNat (48 + n) else Char.ofNat (87 + n)

/-- Lowercase hex of a 32-bit word, big-endian nibble order. -/
def hexWordBE (w : Nat) : List Char :=
  (List.range 8).map (fun i => hexDigit ((w >>> (4 * (7 - i))) &&& 15))

/-- Lowercase hex of a 32-bit word rendered as 4 little-endian bytes (MD5
digest order). -/
def hexWordLE (w : Nat) : List Char :=
  [hexDigit ((w >>> 4) &&& 15), hexDigit (w &&& 15),
   hexDigit ((w >>> 12) &&& 15), hexDigit ((w >>> 8) &&& 15),
   hexDigit ((w >>> 20) &&& 15), hexDigit ((w >>> 16) &&& 15),
   hexDigit ((w >>> 28) &&& 15), hexDigit ((w >>> 24) &&& 15)]

/-! ## SHA-256 (FIPS 180-4), as `hashlib.sha256(...).hexdigest()` -/

def sha256K : List Nat :=
  [1116352408, 1899447441, 3049323471, 3921009573, 961987163, 1508970993,
   2453635748, 2870763221, 3624381080, 310598401, 607225278, 1426881987,
   1925078388, 2162078206, 2614888103, 3248222580, 3835390401, 4022224774,
   264347078, 604807628, 770255983, 1249150122, 1555081692, 1996064986,
   2554220882, 2821834349, 2952996808, 3210313671, 3336571891, 3584528711,
   113926993, 338241895, 666307205, 773529912, 1294757372, 1396182291,
   1695183700, 1986661051, 2177026350, 2456956037, 2730485921, 2820302411,
   3259730800, 3345764771, 3516065817, 3600352804, 4094571909, 275423344,
   430227734, 506948616, 659060556, 883997877, 958139571, 1322822218,
   1537002063, 1747873779, 1955562222, 2024104815, 2227730452, 2361852424,
   2428436474, 2756734187, 3204031479, 3329325298]

def sha256H0 : List Nat :=
  [1779033703, 3144134277, 1013904242, 2773480762,
   1359893119, 2600822924, 528734635, 1541459225]

/-- One message-schedule extension step (`w` already holds `≥ 16` words). -/
def sha256SchedStep (w : Array Nat) : Array Nat :=
  let s := w.size
  let w15 := w.getD (s - 15) 0
  let w2 := w.getD (s - 2) 0
  let s0 := (rotr32 7 w15) ^^^ (rotr32 18 w15) ^^^ (w15 >>> 3)
  let s1 := (rotr32 17 w2) ^^^ (rotr32 19 w2) ^^^ (w2 >>> 10)
  w.push ((w.getD (s - 16) 0 + s0 + w.getD (s - 7) 0 + s1) % M32)

def sha256Schedule (ws : List Nat) : Array Nat :=
  (List.range 48).foldl (fun w _ => sha256SchedStep w) ws.toArray

def sha256Round (w : Array Nat) (st : List Nat) (i : Nat) : List Nat :=
  match st with
  | [a, b, c, d, e, f, g, h] =>
      let s1 := (rotr32 6 e) ^^^ (rotr32 11 e) ^^^ (rotr32 25 e)
      let ch := (e &&& f) ^^^ ((not32 e) &&& g)
      let t1 := (h + s1 + ch + sha256K.getD i 0 + w.getD i 0) % M32
      let s0 := (rotr32 2 a) ^^^ (rotr32 13 a) ^^^ (rotr32 22 a)
      let mj := (a &&& b) ^^^ (a &&& c) ^^^ (b &&& c)
      let t2 := (s0 + mj) % M32
      [(t1 + t2) % M32, a, b, c, (d + t1) % M32, e, f, g]
  | other => other

def sha256Compress (h : List Nat) (chunk : List Nat) : List Nat :=
  let w := sha256Schedule (beWords chunk)
  let st := (List.range 64).foldl (sha256Round w) h
  (h.zip st).map (fun p => add32 p.1 p.2)

def sha256Bytes (msg : List Nat) : List Nat :=
  (chunks64 (mdPad beBytes8 msg)).foldl sha256Compress sha256H0

/-- `hashlib.sha256(s.encode('utf-8')).hexdigest()`. -/
def sha256Hex (s : String) : String :=
  ⟨((sha256Bytes (utf8 s)).map hexWordBE).flatten⟩

/-! ## MD5 (RFC 1321), as `hashlib.md5(...).hexdigest()` -/

def md5K : List Nat :=
  [0xd76aa478, 0xe8c7b756, 0x242070db, 0xc1bdceee, 0xf57c0faf, 0x4787c62a, 0xa8304613, 0xfd469501,
   0x698098d8, 0x8b44f7af, 0xffff5bb1, 0x895cd7be, 0x6b901122, 0xfd987193, 0xa679438e, 0x49b40821,
   0xf61e2562, 0xc040b340, 0x265e5a51, 0xe9b6c7aa, 0xd62f105d, 0x02441453, 0xd8a1e681, 0xe7d3fbc8,
   0x21e1cde6, 0xc33707d6, 0xf4d50d87, 0x455a14ed, 0xa9e3e905, 0xfcefa3f8, 0x676f02d9, 0x8d2a4c8a,
   0xfffa3942, 0x8771f681, 0x6d9d6122, 0xfde5380c, 0xa4beea44, 0x4bdecfa9, 0xf6bb4b60, 0xbebfbc70,
   0x289b7ec6, 0xeaa127fa, 0xd4ef3085, 0x04881d05, 0xd9d4d039, 0xe6db99e5, 0x1fa27cf8, 0xc4ac5665,
   0xf4292244, 0x432aff97, 0xab9423a7, 0xfc93a039, 0x655b59c3, 0x8f0ccc92, 0xffeff47d, 0x85845dd1,
   0x6fa87e4f, 0xfe2ce6e0, 0xa3014314, 0x4e0811a1, 0xf7537e82, 0xbd3af235, 0x2ad7d2bb, 0xeb86d391]

def md5S : List Nat :=
  [7, 12, 17, 22, 7, 12, 17, 22, 7, 12, 17, 22, 7, 12, 17, 22,
   5, 9, 14, 20, 5, 9, 14, 20, 5, 9, 14, 20, 5, 9, 14, 20,
   4, 11, 16, 23, 4, 11, 16, 23, 4, 11, 16, 23, 4, 11, 16, 23,
   6, 10, 15, 21, 6, 10, 15, 21, 6, 10, 15, 21, 6, 10, 15, 21]

def md5Round (m : List Nat) (st : List Nat) (i : Nat) : List Nat :=
  match st with
  | [a, b, c, d] =>
      let fg : Nat × Nat :=
        if i < 16 then ((b &&& c) ||| ((not32 b) &&& d), i)
        else if i < 32 then ((d &&& b) ||| ((not32 d) &&& c), (5 * i + 1) % 16)
        else if i < 48 then (b ^^^ c ^^^ d, (3 * i + 5) % 16)
        else (c ^^^ (b ||| (not32 d)), (7 * i) % 16)
      let t := (a + fg.1 + md5K.getD i 0 + m.getD fg.2 0) % M32
      [d, (b + rotl32 (md5S.getD i 0) t) % M32, b, c]
  | other => other

def md5H0 : List Nat := [0x67452301, 0xefcdab89, 0x98badcfe, 0x10325476]

def md5Compress (h : List Nat) (chunk : List Nat) : List Nat :=
  let m := leWords chunk
  let st := (List.range 64).foldl (md5Round m) h
  (h.zip st).map (fun p => add32 p.1 p.2)

def md5Bytes (msg : List Nat) : List Nat :=
  (chunks64 (mdPad leBytes8 msg)).foldl md5Compress md5H0

/-- `hashlib.md5(s.encode('utf-8')).hexdigest()`. -/
def md5Hex (s : String) : String :=
  ⟨((md5Bytes (utf8 s)).map hexWordLE).flatten⟩


/-! ## Intermediate representation (`parsers/base.py`)

Metadata values are Python objects; the pipeline only stores strings,
ints, bools and `None` in the attribute bags, modelled by `MetaVal`.
-/

inductive MetaVal where
  | s (v : String)
  | i (v : Int)
  | b (v : Bool)
  | none
deriving DecidableEq, Repr

/-- Python truthiness of a metadata value (`if value:`). -/
def MetaVal.truthy : MetaVal → Bool
  | .s v => v ≠ ""
  | .i v => v ≠ 0
  | .b v => v
  | .none => false

/-- `key in md and md[key]` (membership plus truthiness of the value). -/
def metaTruthy (md : List (String × MetaVal)) (key : String) : Bool :=
  match md.lookup key with
  | some v => v.truthy
  | Option.none => false

/-- `md.get(key)` restricted to string values (`None` otherwise). -/
def metaGetStr (md : List (String × MetaVal)) (key : String) : Option String :=
  match md.lookup key with
  | some (.s v) => some v
  | _ => Option.none

structure ParsedEntity where
  id : String
  name : String
  type : String
  file_path : String
  line_start : Nat
  line_end : Nat
  metadata : List (String × MetaVal)
deriving DecidableEq, Repr

structure ParsedRelationship where
  from_id : String
  to_id : String
  relationship_type : String
  metadata : List (String × MetaVal)
deriving DecidableEq, Repr

/-- `ParseResult` from `parsers/base.py`; `parse_time` (a float wall-clock
measurement) is modelled as an opaque tick count. -/
structure ParseResult where
  entities : List ParsedEntity
  relationships : List ParsedRelationship
  file_hash : String
  file_path : String
  errors : List String
  parse_time : Nat
deriving DecidableEq, Repr

/-! ## Posix path helpers (the `pathlib` operations the source uses)

The source runs `pathlib` on POSIX-style paths.  `pathParts` models
`PurePosixPath(p).parts` without the root marker: empty components and
`'.'` are dropped, everything else (including `'..'`) kept.  The POSIX
double-slash-root special case is not modelled.
-/

/-- Split a character list on a separator (Python `s.split(sep)` for a
single-character separator; also the component split `pathlib` performs). -/
def splitOnChar : List Char → Char → List (List Char)
  | [], _ => [[]]
  | c :: rest, sep =>
      match splitOnChar rest sep with
      | [] => [[c]]
      | g :: gs => if c == sep then [] :: g :: gs else (c :: g) :: gs

/-- ASCII lower-casing of one character (`str.lower` on the ASCII range;
non-ASCII case folding is not modelled). -/
def asciiLower (c : Char) : Char :=
  if 'A' ≤ c ∧ c ≤ 'Z' then Char.ofNat (c.toNat + 32) else c

/-- Python `s.lower()` restricted to ASCII. -/
def strLower (s : String) : String := ⟨s.data.map asciiLower⟩

/-- Python `s.startswith(pre)` (character-prefix semantics). -/
def pyStartsWith (s pre : String) : Bool := pre.data.isPrefixOf s.data

/-- Python `s.endswith(suf)` (character-suffix semantics). -/
def pyEndsWith (s suf : String) : Bool := suf.data.isSuffixOf s.data

def pathParts (p : String) : List String :=
  ((splitOnChar p.data '/').map (fun g => (⟨g⟩ : String))).filter
    (fun c => !(c == "" || c == "."))

/-- `PurePosixPath(p).name` (the final component; `''` for a bare root). -/
def pathName (p : String) : String :=
  ((pathParts p).getLast?).getD ""

/-- Last index of `target` in a character list (`None` when absent). -/
def rfindList : List Char → Char → Option Nat
  | [], _ => Option.none
  | c :: rest, target =>
      match rfindList rest target with
      | some j => some (j + 1)
      | Option.none => if c == target then some 0 else Option.none

/-- Last index of character `c` in `s` (Python `s.rfind(c)` when present). -/
def strRfind (s : String) (c : Char) : Option Nat := rfindList s.data c

/-- `PurePosixPath(p).suffix`: the last dot-suffix of the name, empty when
the name has no interior dot (hidden files and trailing dots excluded). -/
def pathSuffix (p : String) : String :=
  let n := pathName p
  match strRfind n '.' with
  | some i => if 0 < i ∧ i < n.length - 1 then ⟨n.data.drop i⟩ else ""
  | Option.none => ""

/-- `PurePosixPath(p).as_posix()` / `str(PurePosixPath(p))`. -/
def asPosix (p : String) : String :=
  let parts := pathParts p
  if pyStartsWith p "/" then "/" ++ String.intercalate "/" parts
  else if parts.isEmpty then "." else String.intercalate "/" parts

/-- `PurePosixPath(p).parent` rendered back to a string. -/
def pathParent (p : String) : String :=
  let parts := (pathParts p).dropLast
  if pyStartsWith p "/" then "/" ++ String.intercalate "/" parts
  else if parts.isEmpty then "." else String.intercalate "/" parts

/-- `str(PurePosixPath(a) / b)` for a relative `b`. -/
def pathJoin (a b : String) : String := asPosix (a ++ "/" ++ b)

/-- `os.path.isabs` on POSIX. -/
def isAbs (p : String) : Bool := pyStartsWith p "/"

/-- `PurePosixPath(p).parts`, including the leading root marker. -/
def pathPartsPy (p : String) : List String :=
  (if pyStartsWith p "/" then ["/"] else []) ++ pathParts p

/-! ## File classification (`parsers/file_types.py`) -/

/-- `FILE_TYPE_PATTERNS` (composite suffixes, checked first). -/
def FILE_TYPE_PATTERNS : List (String × String) :=
  [(".component.ts", "angular"), (".module.ts", "angular"),
   (".service.ts", "angular"), (".guard.ts", "angular"),
   (".pipe.ts", "angular"), (".component.html", "angular"),
   (".component.css", "angular")]

/-- `FILE_TYPE_MAPPINGS` (plain extensions plus whole filenames). -/
def FILE_TYPE_MAPPINGS : List (String × String) :=
  [(".py", "python"), (".pyw", "python"), (".pyi", "python"),
   (".js", "javascript"), (".jsx", "javascript"), (".mjs", "javascript"),
   (".ts", "typescript"), (".tsx", "typescript"),
   (".html", "html"), (".htm", "html"),
   (".css", "css"), (".scss", "css"), (".sass", "css"),
   (".json", "json"), (".yml", "yaml"), (".yaml", "yaml"),
   (".md", "markdown"), ("Dockerfile", "dockerfile")]

/-- `get_file_type` from `parsers/file_types.py`. -/
def get_file_type (file_path : String) : Option String :=
  let name_lower := strLower (pathName file_path)
  match FILE_TYPE_PATTERNS.find? (fun pr => pyEndsWith name_lower pr.1) with
  | some pr => some pr.2
  | Option.none =>
      let extension := strLower (pathSuffix file_path)
      let byName :=
        if extension = "" then FILE_TYPE_MAPPINGS.lookup (pathName file_path)
        else Option.none
      match byName with
      | some t => some t
      | Option.none => FILE_TYPE_MAPPINGS.lookup extension

/-! ## Entity-ID generation (`BaseParser._generate_entity_id`) -/

/-- The identifier parts joined by `_generate_entity_id` before hashing.
`line_end` is a Python optional int (`None`/`0` are falsy), `entity_type`
and `name` fall back to `"unknown"` / `"anonymous"` when empty, `parent_id`
is appended as `parent:<id>` when non-empty. -/
def identifierParts (name file_path : String) (line_start : Nat)
    (entity_type : String) (line_end : Option Nat) (parent_id : String) :
    List String :=
  let normalized_path := asPosix file_path
  [normalized_path,
   if entity_type = "" then "unknown" else entity_type,
   if name = "" then "anonymous" else name,
   toString line_start]
  ++ (match line_end with
      | some e => if e ≠ 0 ∧ e ≠ line_start then [toString e] else []
      | Option.none => [])
  ++ (if parent_id = "" then [] else ["parent:" ++ parent_id])

/-- `":".join(identifier_parts)`. -/
def identifierOf (name file_path : String) (line_start : Nat)
    (entity_type : String) (line_end : Option Nat) (parent_id : String) :
    String :=
  String.intercalate ":" (identifierParts name file_path line_start entity_type line_end parent_id)

/-- `BaseParser._generate_entity_id`: SHA-256 of the joined identifier. -/
def generate_entity_id (name file_path : String) (line_start : Nat)
    (entity_type : String) (line_end : Option Nat) (parent_id : String) :
    String :=
  sha256Hex (identifierOf name file_path line_start entity_type line_end parent_id)

/-- `PythonASTVisitor._generate_id` (`parsers/python.py:449-466`), the context
join: `[file_path, module_name, ".".join(class_name_stack) if ... else "",
".".join(function_name_stack) if ... else "", entity_type, name, str(line)]`
with empty parts dropped, joined by `":"`.  The raw `self.file_path` is used
(no posix normalization) and neither `line_end` nor a parent id is hashed. -/
def pyIdentifier (file_path module_name : String)
    (class_name_stack function_name_stack : List String)
    (entity_type name : String) (line : Nat) : String :=
  let context_parts : List String :=
    [file_path, module_name,
     if class_name_stack = [] then "" else String.intercalate "." class_name_stack,
     if function_name_stack = [] then "" else String.intercalate "." function_name_stack,
     entity_type, name, toString line]
  String.intercalate ":" (context_parts.filter (fun part => part ≠ ""))

/-- `PythonASTVisitor._generate_id`: MD5 of the joined context. -/
def py_generate_id (file_path module_name : String)
    (class_name_stack function_name_stack : List String)
    (entity_type name : String) (line : Nat) : String :=
  md5Hex (pyIdentifier file_path module_name class_name_stack function_name_stack
    entity_type name line)

/-! ## Symbol registry (`EntityExtractor`, `parsers/extractor.py`)

The registry is a Python dict (insertion-ordered, unique keys), modelled
as an association list whose `lookup` is the first binding.
-/

abbrev Registry : Type := List (String × ParsedEntity)

def registryLookup (reg : Registry) (key : String) : Option ParsedEntity :=
  List.lookup key reg

/-- `EntityExtractor._is_more_specific` (lines 660-685): weight `+2` for a
present truthy `class_id`, `+1` for a present truthy `module_id`. -/
def is_more_specific (entity1 entity2 : ParsedEntity) : Bool :=
  let weight1 := (if metaTruthy entity1.metadata "class_id" then 2 else 0)
               + (if metaTruthy entity1.metadata "module_id" then 1 else 0)
  let weight2 := (if metaTruthy entity2.metadata "class_id" then 2 else 0)
               + (if metaTruthy entity2.metadata "module_id" then 1 else 0)
  weight1 > weight2

/-- The per-key body of the registration loop of
`EntityExtractor._register_symbol` (lines 329-337): insert when absent,
otherwise replace in place only when the new entity is more specific. -/
def registerSymbolKey (reg : Registry) (key : String) (entity : ParsedEntity) :
    Registry :=
  match registryLookup reg key with
  | Option.none => reg ++ [(key, entity)]
  | some existing =>
      if is_more_specific entity existing then
        reg.map (fun pr => if pr.1 = key then (key, entity) else pr)
      else reg

/-! ## Pass-2 resolution (`EntityExtractor`, `parsers/extractor.py`)

`Path.resolve()` canonicalises against the live filesystem, so pattern
construction takes it as an explicit parameter `canon`.
-/

/-- `EntityExtractor._resolve_module_reference` (lines 393-426). -/
def resolveModuleReference (reg : Registry) (module_path : String) :
    Option String :=
  if pyStartsWith module_path "@"
      || ["rxjs", "lodash", "moment", "axios"].contains module_path
      || pyStartsWith module_path "node_modules" then
    Option.none
  else
    match registryLookup reg ("module:" ++ module_path) with
    | some e => some e.id
    | Option.none =>
        let second :=
          if pyStartsWith module_path "./" then
            registryLookup reg ("module:" ++ module_path.drop 2)
          else Option.none
        match second with
        | some e => some e.id
        | Option.none =>
            (registryLookup reg ("file:" ++ module_path)).map (fun e => e.id)

/-- Drop duplicates keeping the first occurrence (the explicit
`unique_patterns` loop at the end of the pattern builders). -/
def dedupFirstAux (seen : List String) : List String → List String
  | [] => []
  | a :: rest =>
      if seen.contains a then dedupFirstAux seen rest
      else a :: dedupFirstAux (a :: seen) rest

def dedupFirst (l : List String) : List String := dedupFirstAux [] l

/-- The `src/app` relative-pattern block shared verbatim by the template
and style pattern builders (pattern 5 for absolute paths). -/
def srcAppPatterns (p : String) : List String :=
  let parts := pathPartsPy p
  if parts.contains "src" ∧ parts.contains "app" then
    let src_idx := parts.indexOf "src"
    let app_idx := parts.indexOf "app"
    if app_idx > src_idx then
      let rel_from_app := String.intercalate "/" (parts.drop app_idx)
      ["./" ++ rel_from_app, rel_from_app]
    else []
  else []

/-- `EntityExtractor._create_template_resolution_patterns` (lines 488-557);
`_create_style_resolution_patterns` (lines 559-628) is textually identical
modulo variable names, so both are this single definition. -/
def createResolutionPatterns (canon : String → String) (ref_path : String)
    (component_file_path : Option String) : List String :=
  let patterns1 := [ref_path]
  let patterns2 :=
    match component_file_path with
    | some c =>
        if c ≠ "" ∧ ¬ isAbs ref_path then
          let resolved_path := pathJoin (pathParent c) ref_path
          [canon resolved_path, asPosix resolved_path]
        else []
    | Option.none => []
  let patterns3 :=
    if isAbs ref_path then
      [asPosix ref_path, pathName ref_path] ++ srcAppPatterns ref_path
    else
      (if pyStartsWith ref_path "./" then [ref_path.drop 2] else [])
      ++ [pathName ref_path]
      ++ (if ¬ pyStartsWith ref_path "./" then ["./" ++ ref_path] else [])
  dedupFirst (patterns1 ++ patterns2 ++ patterns3)

/-- Shared lookup loop of `_resolve_template_reference` /
`_resolve_style_reference`: first pattern hitting `<kind>:<p>` or
`file:<p>` wins. -/
def resolvePatternReference (kindKey : String) (canon : String → String)
    (reg : Registry) (ref_path : String) (component_file_path : Option String) :
    Option String :=
  (createResolutionPatterns canon ref_path component_file_path).findSome?
    (fun pattern =>
      match registryLookup reg (kindKey ++ ":" ++ pattern) with
      | some e => some e.id
      | Option.none => (registryLookup reg ("file:" ++ pattern)).map (fun e => e.id))

/-- `EntityExtractor._resolve_symbol_reference` (lines 339-391). -/
def resolveSymbolReference (canon : String → String) (reg : Registry)
    (unresolved_ref : String) (metadata : List (String × MetaVal)) :
    Option String :=
  if ¬ pyStartsWith unresolved_ref "unresolved:" then some unresolved_ref
  else
    let symbol_name := unresolved_ref.drop 11
    if pyStartsWith symbol_name "module_" then
      resolveModuleReference reg (symbol_name.drop 7)
    else if pyStartsWith symbol_name "template_" then
      resolvePatternReference "template" canon reg (symbol_name.drop 9)
        (metaGetStr metadata "component_file_path")
    else if pyStartsWith symbol_name "style_" then
      resolvePatternReference "style" canon reg (symbol_name.drop 6)
        (metaGetStr metadata "component_file_path")
    else if pyStartsWith symbol_name "export_" then Option.none
    else if pyStartsWith symbol_name "external_" then Option.none
    else
      match registryLookup reg symbol_name with
      | some e => some e.id
      | Option.none =>
          (reg.find? (fun pr =>
              pyEndsWith pr.1 ("." ++ symbol_name)
              || pyEndsWith symbol_name ("." ++ pr.1))).map (fun pr => pr.2.id)

/-- The per-relationship body of `EntityExtractor._resolve_relationships`
(lines 189-235): rewrite `to_id` when a truthy resolution is found, keep
the relationship otherwise. -/
def resolveRelationship (canon : String → String) (reg : Registry)
    (relationship : ParsedRelationship) : ParsedRelationship :=
  if pyStartsWith relationship.to_id "unresolved:" then
    match resolveSymbolReference canon reg relationship.to_id relationship.metadata with
    | some resolved_id =>
        if resolved_id ≠ "" then
          ParsedRelationship.mk relationship.from_id resolved_id
            relationship.relationship_type relationship.metadata
        else relationship
    | Option.none => relationship
  else relationship

/-- Per-`ParseResult` part of `_resolve_relationships`. -/
def resolveParseResult (canon : String → String) (reg : Registry)
    (result : ParseResult) : ParseResult :=
  ParseResult.mk result.entities
    (result.relationships.map (resolveRelationship canon reg))
    result.file_hash result.file_path result.errors result.parse_time

/-- `EntityExtractor._resolve_relationships` over all parse results. -/
def resolveRelationshipsAll (canon : String → String) (reg : Registry)
    (results : List ParseResult) : List ParseResult :=
  results.map (resolveParseResult canon reg)

/-! ## External-name sanitisation

`EntityExtractor._sanitize_external_entity_name` (extractor.py lines
806-832) and `JavaScriptParser._sanitize_external_name` (javascript.py
lines 974-999) are textually identical; both are this definition.
-/

def sanitizeExternalName (name : String) : String :=
  if name = "" then "unknown"
  else if name.length > 100 then
    let hash_suffix := (md5Hex name).take 8
    let truncated := name.take 90
    let truncated2 :=
      if (truncated.drop (truncated.length - 10)).data.contains '.' then
        match strRfind truncated '.' with
        | some i => truncated.take i
        | Option.none => truncated
      else truncated
    truncated2 ++ "..." ++ hash_suffix
  else name

/-! ## Insert-query generation (`parsers/extractor.py`)

The source renders Cypher strings; the store-relevant content of a query
is its node label / endpoints and its property list, modelled
structurally.
-/

structure CreateNode where
  label : String
  props : List (String × MetaVal)
deriving DecidableEq, Repr

structure CreateRel where
  from_id : String
  to_id : String
  rtype : String
  props : List (String × MetaVal)
deriving DecidableEq, Repr

/-- The entity types whose display name is sanitised before insertion. -/
def externalEntityTypes : List String :=
  ["ExternalFunction", "ExternalProperty", "ExternalModule",
   "ExternalExport", "ExternalSymbol", "ExternalReference"]

/-- `schema_properties` table of `_create_entity_insert_query`. -/
def schemaProperties : List (String × List String) :=
  [("File", ["extension", "size", "modified_time", "hash", "lines_of_code"]),
   ("Module", ["docstring"]),
   ("Class", ["module_id", "docstring", "is_abstract"]),
   ("Function", ["module_id", "class_id", "docstring", "signature",
                 "return_type", "is_async", "is_generator", "is_property",
                 "is_staticmethod", "is_classmethod", "complexity"]),
   ("Variable", ["scope_id", "type_annotation", "is_global", "is_constant"]),
   ("Import", ["module_name", "alias", "is_from_import"])]

/-- `EntityExtractor._create_entity_insert_query` (lines 834-913): the
property list of the generated `CREATE (:<type> ...)` query.  File
entities get a `path` property; all other entities get `file_id` from
their metadata (when truthy).  No branch ever writes a `file_path`
property. -/
def entityInsertProps (entity : ParsedEntity) : List (String × MetaVal) :=
  let entity_name :=
    if externalEntityTypes.contains entity.type then
      sanitizeExternalName entity.name
    else entity.name
  let base := [("id", MetaVal.s entity.id), ("name", MetaVal.s entity_name)]
  let pathProps :=
    if entity.type = "File" then [("path", MetaVal.s entity.file_path)]
    else
      match entity.metadata.lookup "file_id" with
      | some v => if v.truthy then [("file_id", v)] else []
      | Option.none => []
  let lineProps :=
    if ["Module", "Class", "Function"].contains entity.type then
      [("line_start", MetaVal.i entity.line_start),
       ("line_end", MetaVal.i entity.line_end)]
    else if ["Import", "Variable"].contains entity.type then
      [("line_number", MetaVal.i entity.line_start)]
    else []
  let allowed_props := (schemaProperties.lookup entity.type).getD []
  let metaProps := entity.metadata.filter
    (fun pr => pr.2 ≠ MetaVal.none && allowed_props.contains pr.1)
  base ++ pathProps ++ lineProps ++ metaProps

def createEntityInsertQuery (entity : ParsedEntity) : CreateNode :=
  CreateNode.mk entity.type (entityInsertProps entity)

/-- `EntityExtractor._create_relationship_insert_query` (lines 915-967):
relationships with an `unresolved:` endpoint are skipped (`None`), all
others become a `MATCH ... CREATE` with the non-`None` metadata. -/
def createRelationshipInsertQuery (relationship : ParsedRelationship) :
    Option CreateRel :=
  if pyStartsWith relationship.from_id "unresolved:"
      || pyStartsWith relationship.to_id "unresolved:" then
    Option.none
  else
    some (CreateRel.mk relationship.from_id relationship.to_id
      relationship.relationship_type
      (relationship.metadata.filter (fun pr => pr.2 ≠ MetaVal.none)))

/-! ## Property-graph store model

Kuzu executes the generated queries; `MATCH (n {k: v})` matches nodes
whose property `k` equals `v` (absent property: no match).
-/

structure StoreNode where
  label : String
  props : List (String × MetaVal)
deriving DecidableEq, Repr

structure StoreEdge where
  from_id : String
  to_id : String
  rtype : String
  props : List (String × MetaVal)
deriving DecidableEq, Repr

structure GraphStore where
  nodes : List StoreNode
  edges : List StoreEdge
deriving DecidableEq, Repr

def nodeProp (n : StoreNode) (key : String) : Option MetaVal :=
  n.props.lookup key

def applyCreateNode (store : GraphStore) (q : CreateNode) : GraphStore :=
  GraphStore.mk (store.nodes ++ [StoreNode.mk q.label q.props]) store.edges

def applyCreateRel (store : GraphStore) (q : CreateRel) : GraphStore :=
  GraphStore.mk store.nodes
    (store.edges ++ [StoreEdge.mk q.from_id q.to_id q.rtype q.props])

/-- Node ids returned by `MATCH (n {file_path: "<p>"}) RETURN n.id`. -/
def matchFilePathIds (store : GraphStore) (file_path : String) : List String :=
  (store.nodes.filter
      (fun n => nodeProp n "file_path" == some (MetaVal.s file_path))).filterMap
    (fun n => match nodeProp n "id" with
      | some (MetaVal.s i) => some i
      | _ => Option.none)

/-- `IncrementalUpdater._remove_files_from_graph` (incremental.py lines
275-320) for one file: select nodes by their `file_path` property, delete
their incident edges (`MATCH (n {id})-[r]-() DELETE r`), then the nodes. -/
def removeFileFromGraph (store : GraphStore) (file_path : String) : GraphStore :=
  let entity_ids := matchFilePathIds store file_path
  let edges' := store.edges.filter
    (fun e => !(entity_ids.contains e.from_id || entity_ids.contains e.to_id))
  let nodes' := store.nodes.filter
    (fun n => match nodeProp n "id" with
      | some (MetaVal.s i) => !entity_ids.contains i
      | _ => true)
  GraphStore.mk nodes' edges'

def removeFilesFromGraph (store : GraphStore) (file_paths : List String) :
    GraphStore :=
  file_paths.foldl removeFileFromGraph store

/-! ## JavaScript external stubs (`parsers/javascript.py`) -/

/-- `entity_type_map` of `_create_external_entities_for_relationships`. -/
def jsEntityTypeMap : List (String × String) :=
  [("module", "ExternalModule"), ("export", "ExternalExport"),
   ("external", "ExternalSymbol"), ("property", "ExternalProperty"),
   ("template", "ExternalTemplate"), ("style", "ExternalStyle")]

/-- Stub entity built for an unresolved `CALLS` target (javascript.py
lines 1013-1041); its id keeps the `unresolved:function_` prefix around
the sanitised name. -/
def jsFunctionStub (function_name : String) : ParsedEntity :=
  let sanitized_name := sanitizeExternalName function_name
  ParsedEntity.mk ("unresolved:function_" ++ sanitized_name) sanitized_name
    "ExternalFunction" "<external>" 0 0
    [("external", MetaVal.b true), ("stub", MetaVal.b true),
     ("function_name", MetaVal.s function_name),
     ("language", MetaVal.s "javascript"),
     ("source", MetaVal.s "external_reference")]

/-- Stub entity built for any other unresolved reference (javascript.py
lines 1044-1083). -/
def jsGenericStub (reference_type reference_name : String) : ParsedEntity :=
  let entity_type := (jsEntityTypeMap.lookup reference_type).getD "ExternalReference"
  let sanitized_name := sanitizeExternalName reference_name
  ParsedEntity.mk ("unresolved:" ++ reference_type ++ "_" ++ sanitized_name)
    sanitized_name entity_type "<external>" 0 0
    [("external", MetaVal.b true), ("stub", MetaVal.b true),
     ("reference_type", MetaVal.s reference_type),
     ("reference_name", MetaVal.s reference_name),
     ("language", MetaVal.s "javascript"),
     ("source", MetaVal.s "external_reference")]

/-- One step of `_create_external_entities_for_relationships`: given the
set of already-known entity ids, produce the (possibly) created stub and
the (possibly rewritten) relationship. -/
def jsExternalStep (existing_ids : List String) (rel : ParsedRelationship) :
    Option ParsedEntity × ParsedRelationship :=
  if rel.relationship_type = "CALLS"
      ∧ pyStartsWith rel.to_id "unresolved:function_" then
    if existing_ids.contains rel.to_id then (Option.none, rel)
    else
      let function_name := rel.to_id.replace "unresolved:function_" ""
      let stub := jsFunctionStub function_name
      (some stub, ParsedRelationship.mk rel.from_id stub.id
        rel.relationship_type rel.metadata)
  else if pyStartsWith rel.to_id "unresolved:"
      ∧ ¬ existing_ids.contains rel.to_id then
    let reference_type :=
      (⟨((splitOnChar ((⟨(splitOnChar rel.to_id.data ':').getD 1 []⟩ : String)).data '_').headD [])⟩ : String)
    let reference_name :=
      rel.to_id.replace ("unresolved:" ++ reference_type ++ "_") ""
    let stub := jsGenericStub reference_type reference_name
    (some stub, ParsedRelationship.mk rel.from_id stub.id
      rel.relationship_type rel.metadata)
  else (Option.none, rel)

/-! ## Incremental update (`parsers/incremental.py`) -/

structure Changes where
  added : List String
  modified : List String
  removed : List String
  unchanged : List String
  total_files : Nat
deriving DecidableEq, Repr

/-- Per-file classification step of `_detect_changes` (lines 158-213):
`ledger` models the in-memory `self.file_hashes`, each current file comes
with its freshly computed content hash. -/
def detectStep (ledger : List (String × String)) (ch : Changes)
    (file : String × String) : Changes :=
  match ledger.lookup file.1 with
  | Option.none => { ch with added := ch.added ++ [file.1] }
  | some stored =>
      if stored ≠ file.2 then { ch with modified := ch.modified ++ [file.1] }
      else { ch with unchanged := ch.unchanged ++ [file.1] }

/-- `IncrementalUpdater._detect_changes`: classify every current file,
then collect ledger entries absent from the walk as `removed`;
`total_files` is the size of the set of current files. -/
def detectChanges (ledger : List (String × String))
    (current : List (String × String)) : Changes :=
  let ch0 := current.foldl (detectStep ledger) (Changes.mk [] [] [] [] 0)
  let current_files := current.map Prod.fst
  let removed := (ledger.map Prod.fst).filter
    (fun stored => !current_files.contains stored)
  Changes.mk ch0.added ch0.modified removed ch0.unchanged
    (dedupFirst current_files).length

/-- The `files_*` counters of the update-results dictionary. -/
structure UpdateResults where
  files_added : Nat
  files_modified : Nat
  files_removed : Nat
  files_unchanged : Nat
  total_files : Nat
deriving DecidableEq, Repr

/-- A write issued to the store during an update. -/
inductive StoreOp where
  | removeFile (path : String)
  | insertNode (q : CreateNode)
  | insertRel (q : CreateRel)
deriving DecidableEq, Repr

/-- Entity de-duplication by id of `_store_results` (first occurrence
wins). -/
def dedupEntitiesAux (seen : List String) :
    List ParsedEntity → List ParsedEntity
  | [] => []
  | e :: rest =>
      if seen.contains e.id then dedupEntitiesAux seen rest
      else e :: dedupEntitiesAux (e.id :: seen) rest

def dedupEntitiesById (entities : List ParsedEntity) : List ParsedEntity :=
  dedupEntitiesAux [] entities

/-- The write sequence of `EntityExtractor._store_results` (lines
687-780): de-duplicated entity inserts, then relationship inserts.
`normalize` stands for the per-parser `_normalize_relationship_metadata`
dispatch (selected by the result's file path). -/
def storeResultsOps
    (normalize : String → ParsedRelationship → ParsedRelationship)
    (parse_results : List ParseResult) : List StoreOp :=
  let unique_entities :=
    dedupEntitiesById ((parse_results.map (fun r => r.entities)).flatten)
  let entity_queries :=
    unique_entities.map (fun e => StoreOp.insertNode (createEntityInsertQuery e))
  let relationship_queries :=
    (parse_results.map (fun r =>
      r.relationships.filterMap (fun rel =>
        (createRelationshipInsertQuery (normalize r.file_path rel)).map
          StoreOp.insertRel))).flatten
  entity_queries ++ relationship_queries

/-- `EntityExtractor.__init__` sets `self.symbol_registry = {}`; the
incremental path never repopulates it (`_process_changes`, lines 238-257,
resolves against it as-is and performs no store lookups). -/
def incrementalInitialRegistry : Registry := []

/-- `IncrementalUpdater._process_changes` (lines 215-273): removal ops for
removed files, then for a non-empty reparse set removal ops for modified
files followed by the stored resolve results; the `files_*` counters are
set from the change sets.  `parse` models `parser.parse_file`. -/
def processChanges (parse : String → ParseResult) (canon : String → String)
    (reg : Registry)
    (normalize : String → ParsedRelationship → ParsedRelationship)
    (changes : Changes) : UpdateResults × List StoreOp :=
  let ops1 := changes.removed.map StoreOp.removeFile
  let files_to_parse := changes.added ++ changes.modified
  let ops2 :=
    if files_to_parse.isEmpty then []
    else
      let modOps := changes.modified.map StoreOp.removeFile
      let parse_results := files_to_parse.map parse
      let resolved := resolveRelationshipsAll canon reg parse_results
      modOps ++ storeResultsOps normalize resolved
  (UpdateResults.mk changes.added.length changes.modified.length
      changes.removed.length changes.unchanged.length changes.total_files,
   ops1 ++ ops2)

/-- `IncrementalUpdater.update_graph` (lines 39-92): detect changes, run
`_process_changes` only when one of `added`/`modified`/`removed` is
non-empty; otherwise the update skips and the zero-initialised `files_*`
counters are reported (only `total_files` is merged in from the change
dictionary). -/
def updateGraph (parse : String → ParseResult) (canon : String → String)
    (reg : Registry)
    (normalize : String → ParsedRelationship → ParsedRelationship)
    (ledger : List (String × String)) (current : List (String × String)) :
    UpdateResults × List StoreOp :=
  let changes := detectChanges ledger current
  if !changes.added.isEmpty || !changes.modified.isEmpty
      || !changes.removed.isEmpty then
    processChanges parse canon reg normalize changes
  else
    (UpdateResults.mk 0 0 0 0 changes.total_files, [])

/-! ## Python cyclomatic complexity (`parsers/python.py`)

`ast` trees are modelled by node kind and child list.  The kinds the
complexity loop distinguishes get their own tag; every other node kind is
`other`.  For a `boolOp` node the children are its `values` (the operator
child is a field-less leaf contributing neither weight nor children and is
omitted).
-/

inductive PyNodeKind where
  | ifStmt
  | whileStmt
  | forStmt
  | asyncFor
  | exceptHandler
  | withStmt
  | asyncWith
  | boolOp
  | other
deriving DecidableEq, Repr

inductive PyAst where
  | node (kind : PyNodeKind) (children : List PyAst)
deriving Repr

def PyAst.kind : PyAst → PyNodeKind
  | .node k _ => k

def PyAst.children : PyAst → List PyAst
  | .node _ cs => cs

/-- The branch kinds of the `isinstance` tuple in `_calculate_complexity`. -/
def branchKinds : List PyNodeKind :=
  [PyNodeKind.ifStmt, PyNodeKind.whileStmt, PyNodeKind.forStmt,
   PyNodeKind.asyncFor, PyNodeKind.exceptHandler, PyNodeKind.withStmt,
   PyNodeKind.asyncWith]

/-- `ast.walk`: breadth-first enumeration of all nodes via a deque. -/
def astWalk : List PyAst → List PyAst
  | [] => []
  | n :: rest => n :: astWalk (rest ++ n.children)
  termination_by l => sizeOf l
  decreasing_by
    simp only [List.cons.sizeOf_spec]
    induction rest with
    | nil => cases n with
      | node k cs => simp [PyAst.children]; omega
    | cons b bs ih => simp_all [List.cons.sizeOf_spec]; omega

/-- `PythonParser._calculate_complexity` (python.py lines 559-570): fold
of the walk, starting from base complexity 1. -/
def calculate_complexity (node : PyAst) : Nat :=
  (astWalk [node]).foldl
    (fun complexity child =>
      if branchKinds.contains child.kind then complexity + 1
      else if child.kind = PyNodeKind.boolOp then
        complexity + (child.children.length - 1)
      else complexity)
    1

/-- The claim-side weight of a single node: `1` per branching construct,
`n-1` per boolean n-ary operation. -/
def nodeWeight (n : PyAst) : Nat :=
  if branchKinds.contains n.kind then 1
  else if n.kind = PyNodeKind.boolOp then n.children.length - 1
  else 0

/-- Claim-side structural count: sum of `nodeWeight` over the subtree. -/
def subtreeWeight : PyAst → Nat
  | .node k cs =>
      nodeWeight (.node k cs) + (cs.attach.map (fun c => subtreeWeight c.1)).sum
  termination_by t => sizeOf t
  decreasing_by
    cases c with
    | mk v hv =>
        simp only [PyAst.node.sizeOf_spec]
        have := List.sizeOf_lt_of_mem hv
        omega

/-! ## Claim-side specifications

Definitions below phrase properties the way the specification states
them; the theorems relate them to the embedded source functions.
-/

/-- Claim-side classification order: composite suffixes first (always
`angular`), then the plain-extension map, then a whole-filename match for
extensionless files, else `None`. -/
def specFileType (p : String) : Option String :=
  let nameLower := strLower (pathName p)
  if FILE_TYPE_PATTERNS.any (fun pr => pyEndsWith nameLower pr.1) then
    some "angular"
  else
    match FILE_TYPE_MAPPINGS.lookup (strLower (pathSuffix p)) with
    | some t => some t
    | Option.none =>
        if strLower (pathSuffix p) = "" then
          FILE_TYPE_MAPPINGS.lookup (pathName p)
        else Option.none

/-- Claim-side check that a metadata key carries a non-empty string. -/
def hasNonEmptyStr (md : List (String × MetaVal)) (key : String) : Bool :=
  match md.lookup key with
  | some (MetaVal.s v) => v ≠ ""
  | _ => false

/-- Claim-side specificity score: `+2` for a non-empty `class_id`, `+1`
for a non-empty `module_id`. -/
def specificityScore (e : ParsedEntity) : Nat :=
  (if hasNonEmptyStr e.metadata "class_id" then 2 else 0)
  + (if hasNonEmptyStr e.metadata "module_id" then 1 else 0)

/-- A metadata key is string-valued when present (ids in the pipeline are
strings). -/
def strOrAbsent (md : List (String × MetaVal)) (key : String) : Prop :=
  ∀ v, md.lookup key = some v → ∃ s, v = MetaVal.s s

/-- Claim-side "every tracked file unchanged": every current file is in
the ledger with the same hash, and every ledger path is still present. -/
def trackedUnchanged (ledger current : List (String × String)) : Prop :=
  (∀ f ∈ current, ledger.lookup f.1 = some f.2)
  ∧ ∀ p ∈ ledger.map Prod.fst, p ∈ current.map Prod.fst

/-- Decimal value of a digit string (claim-side decoder used to show the
decimal rendering in identifier strings is injective). -/
def parseDigits (cs : List Char) : Nat :=
  cs.foldl (fun a c => 10 * a + (c.toNat - 48)) 0

/-! ## Theorems -/

/-- Every composite-suffix pattern maps to `angular`. -/
lemma patterns_all_angular : ∀ pr ∈ FILE_TYPE_PATTERNS, pr.2 = "angular" := by
  decide

lemma mappings_lookup_empty : FILE_TYPE_MAPPINGS.lookup "" = Option.none := by
  decide

/-- C7: file classification is a pure function of the path; a composite
suffix (e.g. `.component.ts`) wins over the plain-extension map, otherwise
the extension map applies, then a whole-filename match for extensionless
files, and anything else is `None`. -/
theorem C7_file_classification :
    (∀ p, get_file_type p = specFileType p)
    ∧ ∀ p, pyEndsWith (strLower (pathName p)) ".component.ts" = true →
        get_file_type p = some "angular" := by
  constructor
  · intro p
    unfold get_file_type specFileType
    rcases hfind : FILE_TYPE_PATTERNS.find?
        (fun pr => pyEndsWith (strLower (pathName p)) pr.1) with _ | pr
    · have hany : FILE_TYPE_PATTERNS.any
          (fun pr => pyEndsWith (strLower (pathName p)) pr.1) = false := by
        rw [List.any_eq_false]
        intro x hx
        have := List.find?_eq_none.mp hfind x hx
        simpa using this
      simp only [hfind, hany, Bool.false_eq_true, if_false]
      by_cases hext : strLower (pathSuffix p) = ""
      · rw [hext, mappings_lookup_empty]
        simp only [if_pos rfl]
        rcases FILE_TYPE_MAPPINGS.lookup (pathName p) with _ | t <;> simp
      · have : (if strLower (pathSuffix p) = "" then
            FILE_TYPE_MAPPINGS.lookup (pathName p) else Option.none)
            = Option.none := by simp [hext]
        rw [this]
        rcases FILE_TYPE_MAPPINGS.lookup (strLower (pathSuffix p)) with _ | t
        · simp [hext]
        · simp
    · have hmem := List.mem_of_find?_eq_some hfind
      have hsat := List.find?_some hfind
      have hang := patterns_all_angular pr hmem
      have hany : FILE_TYPE_PATTERNS.any
          (fun x => pyEndsWith (strLower (pathName p)) x.1) = true :=
        List.any_eq_true.mpr ⟨pr, hmem, hsat⟩
      simp [hfind, hany, hang]
  · intro p h
    unfold get_file_type
    rcases hfind : FILE_TYPE_PATTERNS.find?
        (fun pr => pyEndsWith (strLower (pathName p)) pr.1) with _ | pr
    · exfalso
      have := List.find?_eq_none.mp hfind (".component.ts", "angular") (by decide)
      simp only [h] at this
      exact this trivial
    · have hang := patterns_all_angular pr (List.mem_of_find?_eq_some hfind)
      simp [hfind, hang]

/-- Witness for C7 at a concrete Angular component path. -/
theorem C7_file_classification_witness :
    get_file_type "src/app/x.component.ts" = some "angular"
    ∧ get_file_type "src/app/x.component.ts"
        = specFileType "src/app/x.component.ts" :=
  ⟨C7_file_classification.2 "src/app/x.component.ts" (by decide),
   C7_file_classification.1 "src/app/x.component.ts"⟩

/-- Folding the complexity step over a list adds the node weights. -/
lemma foldl_complexity_step (l : List PyAst) (c : Nat) :
    l.foldl
      (fun complexity child =>
        if branchKinds.contains child.kind then complexity + 1
        else if child.kind = PyNodeKind.boolOp then
          complexity + (child.children.length - 1)
        else complexity)
      c
    = c + (l.map nodeWeight).sum := by
  induction l generalizing c with
  | nil => simp
  | cons a as ih =>
      have hstep : (if branchKinds.contains a.kind then c + 1
          else if a.kind = PyNodeKind.boolOp then
            c + (a.children.length - 1)
          else c) = c + nodeWeight a := by
        unfold nodeWeight
        split_ifs <;> simp
      simp only [List.foldl_cons, List.map_cons, List.sum_cons, hstep, ih]
      omega

/-- `subtreeWeight` without the `attach` wrapper. -/
lemma subtreeWeight_node (k : PyNodeKind) (cs : List PyAst) :
    subtreeWeight (PyAst.node k cs)
    = nodeWeight (PyAst.node k cs) + (cs.map subtreeWeight).sum := by
  rw [subtreeWeight]
  congr 1
  simp

/-- The weights collected along the breadth-first walk of a forest equal
the structural subtree weights of its roots. -/
lemma walk_weight_sum :
    ∀ l : List PyAst, ((astWalk l).map nodeWeight).sum
      = (l.map subtreeWeight).sum := by
  intro l
  induction l using astWalk.induct with
  | case1 => simp [astWalk]
  | case2 n rest ih =>
      rw [astWalk]
      cases n with
      | node k cs =>
          simp only [PyAst.children] at ih
          simp only [PyAst.children, List.map_cons, List.sum_cons, ih,
            List.map_append, List.sum_append, subtreeWeight_node]
          omega

/-- C9: for every Python callable the recorded cyclomatic complexity is
`1` plus one per `if`/`while`/`for`/async-`for`/`except`-handler/`with`/
async-`with` contained in it, plus `n-1` per boolean n-ary operation. -/
theorem C9_cyclomatic_complexity (node : PyAst) :
    calculate_complexity node = 1 + subtreeWeight node := by
  unfold calculate_complexity
  rw [foldl_complexity_step, walk_weight_sum [node]]
  simp

/-- Under string-valued metadata, the source's truthiness test agrees
with the claim-side non-empty-string test. -/
lemma metaTruthy_eq_hasNonEmptyStr (md : List (String × MetaVal)) (key : String)
    (h : strOrAbsent md key) : metaTruthy md key = hasNonEmptyStr md key := by
  unfold metaTruthy hasNonEmptyStr
  rcases hl : md.lookup key with _ | v
  · rfl
  · obtain ⟨s, rfl⟩ := h v hl
    rfl

/-- Lookup after the in-place replacement performed on a collision. -/
lemma lookup_map_replace (reg : Registry) (key : String) (e : ParsedEntity) :
    List.lookup key (reg.map (fun pr => if pr.1 = key then (key, e) else pr))
      = if (List.lookup key reg).isSome then some e else Option.none := by
  induction reg with
  | nil => simp
  | cons a rest ih =>
      rcases a with ⟨k, v⟩
      by_cases hk : k = key
      · subst hk
        simp [List.lookup_cons]
      · have h1 : (key == k) = false := by simp [Ne.symm hk]
        simp only [List.map_cons]
        rw [if_neg hk]
        simp only [List.lookup_cons, h1, ih]

/-- C6: when two entities are registered under the same key, the registry
keeps the one with the higher specificity score (`+2` for a non-empty
`class_id`, `+1` for a non-empty `module_id`); on a tie the
earlier-inserted entity is retained. -/
theorem C6_registry_collision (reg : Registry) (key : String)
    (e1 e2 : ParsedEntity)
    (h1 : registryLookup reg key = some e1)
    (hs1c : strOrAbsent e1.metadata "class_id")
    (hs1m : strOrAbsent e1.metadata "module_id")
    (hs2c : strOrAbsent e2.metadata "class_id")
    (hs2m : strOrAbsent e2.metadata "module_id") :
    registryLookup (registerSymbolKey reg key e2) key
      = some (if specificityScore e1 < specificityScore e2 then e2 else e1) := by
  have hw : is_more_specific e2 e1
      = decide (specificityScore e1 < specificityScore e2) := by
    unfold is_more_specific specificityScore
    rw [metaTruthy_eq_hasNonEmptyStr _ _ hs2c, metaTruthy_eq_hasNonEmptyStr _ _ hs2m,
      metaTruthy_eq_hasNonEmptyStr _ _ hs1c, metaTruthy_eq_hasNonEmptyStr _ _ hs1m]
  have hreg : registerSymbolKey reg key e2
      = if is_more_specific e2 e1 then
          reg.map (fun pr => if pr.1 = key then (key, e2) else pr)
        else reg := by
    unfold registerSymbolKey
    rw [h1]
  rw [hreg, hw]
  by_cases hlt : specificityScore e1 < specificityScore e2
  · rw [if_pos (decide_eq_true hlt)]
    unfold registryLookup at h1 ⊢
    rw [lookup_map_replace, h1]
    simp [hlt]
  · rw [if_neg (by simp [hlt])]
    unfold registryLookup at h1 ⊢
    rw [h1]
    simp [hlt]

/-- Witness for C6 at a concrete collision: a `class_id`-carrying entity
(score 2) displaces a `module_id`-carrying one (score 1). -/
theorem C6_registry_collision_witness :
    registryLookup
      (registerSymbolKey
        [("foo", ParsedEntity.mk "id1" "foo" "Function" "a.py" 1 2
            [("module_id", MetaVal.s "m")])]
        "foo"
        (ParsedEntity.mk "id2" "foo" "Function" "b.py" 3 4
            [("class_id", MetaVal.s "c")]))
      "foo"
    = some (ParsedEntity.mk "id2" "foo" "Function" "b.py" 3 4
        [("class_id", MetaVal.s "c")]) := by
  have h := C6_registry_collision
    [("foo", ParsedEntity.mk "id1" "foo" "Function" "a.py" 1 2
        [("module_id", MetaVal.s "m")])]
    "foo"
    (ParsedEntity.mk "id1" "foo" "Function" "a.py" 1 2
        [("module_id", MetaVal.s "m")])
    (ParsedEntity.mk "id2" "foo" "Function" "b.py" 3 4
        [("class_id", MetaVal.s "c")])
    rfl
    (by intro v hv; simp [List.lookup] at hv)
    (by intro v hv; simp [List.lookup] at hv; exact ⟨"m", hv.symm⟩)
    (by intro v hv; simp [List.lookup] at hv; exact ⟨"c", hv.symm⟩)
    (by intro v hv; simp [List.lookup] at hv)
  rw [h, if_pos (by decide)]

lemma resolveRelationship_from (canon : String → String) (reg : Registry)
    (s : ParsedRelationship) :
    (resolveRelationship canon reg s).from_id = s.from_id := by
  unfold resolveRelationship
  repeat' split
  all_goals rfl

lemma resolveRelationship_rtype (canon : String → String) (reg : Registry)
    (s : ParsedRelationship) :
    (resolveRelationship canon reg s).relationship_type
      = s.relationship_type := by
  unfold resolveRelationship
  repeat' split
  all_goals rfl

lemma resolveRelationship_meta (canon : String → String) (reg : Registry)
    (s : ParsedRelationship) :
    (resolveRelationship canon reg s).metadata = s.metadata := by
  unfold resolveRelationship
  repeat' split
  all_goals rfl

lemma resolveRelationship_to_resolved (canon : String → String)
    (reg : Registry) (s : ParsedRelationship)
    (h : pyStartsWith s.to_id "unresolved:" = false) :
    (resolveRelationship canon reg s).to_id = s.to_id := by
  unfold resolveRelationship
  rw [if_neg (by simp [h])]

lemma resolveRelationship_to_cases (canon : String → String) (reg : Registry)
    (s : ParsedRelationship) :
    (resolveRelationship canon reg s).to_id = s.to_id
    ∨ ∃ rid, resolveSymbolReference canon reg s.to_id s.metadata = some rid
        ∧ (resolveRelationship canon reg s).to_id = rid := by
  unfold resolveRelationship
  by_cases hu : pyStartsWith s.to_id "unresolved:"
  · rw [if_pos hu]
    rcases hres : resolveSymbolReference canon reg s.to_id s.metadata with _ | rid
    · left
      rfl
    · by_cases hne : rid = ""
      · left
        simp [hne]
      · right
        exact ⟨rid, rfl, by simp [hne]⟩
  · rw [if_neg hu]
    left
    rfl

/-- C10: Pass-2 resolution modifies nothing except unresolved relationship
targets: every parse result keeps its entities, file hash, file path,
errors and parse time, and every relationship keeps its source, type and
metadata; a target not starting with `unresolved:` is returned unchanged,
and a placeholder target is either rewritten to a resolved entity id or
left unchanged. -/
theorem C10_resolution_frame (canon : String → String) (reg : Registry)
    (results : List ParseResult) :
    (resolveRelationshipsAll canon reg results).length = results.length
    ∧ List.Forall₂ (fun r' r =>
        r'.entities = r.entities ∧ r'.file_hash = r.file_hash
        ∧ r'.file_path = r.file_path ∧ r'.errors = r.errors
        ∧ r'.parse_time = r.parse_time
        ∧ List.Forall₂ (fun s' s =>
            s'.from_id = s.from_id
            ∧ s'.relationship_type = s.relationship_type
            ∧ s'.metadata = s.metadata
            ∧ (pyStartsWith s.to_id "unresolved:" = false → s'.to_id = s.to_id)
            ∧ (s'.to_id = s.to_id ∨ ∃ rid,
                resolveSymbolReference canon reg s.to_id s.metadata = some rid
                ∧ s'.to_id = rid))
          r'.relationships r.relationships)
      (resolveRelationshipsAll canon reg results) results := by
  constructor
  · simp [resolveRelationshipsAll]
  · unfold resolveRelationshipsAll
    rw [List.forall₂_map_left_iff, List.forall₂_same]
    intro r _
    refine ⟨rfl, rfl, rfl, rfl, rfl, ?_⟩
    unfold resolveParseResult
    rw [List.forall₂_map_left_iff, List.forall₂_same]
    intro s _
    exact ⟨resolveRelationship_from canon reg s,
      resolveRelationship_rtype canon reg s,
      resolveRelationship_meta canon reg s,
      resolveRelationship_to_resolved canon reg s,
      resolveRelationship_to_cases canon reg s⟩

/-- Witness for C10 at a concrete run (one result, one already-resolved
and one placeholder relationship, empty registry). -/
theorem C10_resolution_frame_witness :
    (resolveRelationshipsAll id []
        [ParseResult.mk [] [ParsedRelationship.mk "a" "b" "CALLS" [],
            ParsedRelationship.mk "a" "unresolved:function_foo" "CALLS" []]
          "hash" "f.py" [] 0]).length = 1
    ∧ List.Forall₂ (fun r' r =>
        r'.entities = r.entities ∧ r'.file_hash = r.file_hash
        ∧ r'.file_path = r.file_path ∧ r'.errors = r.errors
        ∧ r'.parse_time = r.parse_time
        ∧ List.Forall₂ (fun s' s =>
            s'.from_id = s.from_id
            ∧ s'.relationship_type = s.relationship_type
            ∧ s'.metadata = s.metadata
            ∧ (pyStartsWith s.to_id "unresolved:" = false → s'.to_id = s.to_id)
            ∧ (s'.to_id = s.to_id ∨ ∃ rid,
                resolveSymbolReference id [] s.to_id s.metadata = some rid
                ∧ s'.to_id = rid))
          r'.relationships r.relationships)
      (resolveRelationshipsAll id []
        [ParseResult.mk [] [ParsedRelationship.mk "a" "b" "CALLS" [],
            ParsedRelationship.mk "a" "unresolved:function_foo" "CALLS" []]
          "hash" "f.py" [] 0])
      [ParseResult.mk [] [ParsedRelationship.mk "a" "b" "CALLS" [],
          ParsedRelationship.mk "a" "unresolved:function_foo" "CALLS" []]
        "hash" "f.py" [] 0] :=
  C10_resolution_frame id []
    [ParseResult.mk [] [ParsedRelationship.mk "a" "b" "CALLS" [],
        ParsedRelationship.mk "a" "unresolved:function_foo" "CALLS" []]
      "hash" "f.py" [] 0]

/-- Accumulated `added` field of the change-detection fold. -/
lemma detectFold_added (ledger : List (String × String)) :
    ∀ (current : List (String × String)) (ch : Changes),
      (current.foldl (detectStep ledger) ch).added
        = ch.added
          ++ (current.filter (fun f => (ledger.lookup f.1).isNone)).map Prod.fst := by
  intro current
  induction current with
  | nil => simp
  | cons f rest ih =>
      intro ch
      rw [List.foldl_cons, ih]
      unfold detectStep
      rcases hl : ledger.lookup f.1 with _ | stored
      · dsimp only
        simp [hl]
      · dsimp only
        by_cases hne : stored ≠ f.2
        · rw [if_pos hne]
          simp [hl]
        · rw [if_neg hne]
          simp [hl]

/-- Accumulated `modified` field of the change-detection fold. -/
lemma detectFold_modified (ledger : List (String × String)) :
    ∀ (current : List (String × String)) (ch : Changes),
      (current.foldl (detectStep ledger) ch).modified
        = ch.modified
          ++ (current.filter (fun f =>
                match ledger.lookup f.1 with
                | some stored => stored ≠ f.2
                | Option.none => false)).map Prod.fst := by
  intro current
  induction current with
  | nil => simp
  | cons f rest ih =>
      intro ch
      rw [List.foldl_cons, ih]
      unfold detectStep
      rcases hl : ledger.lookup f.1 with _ | stored
      · dsimp only
        simp [hl]
      · dsimp only
        by_cases hne : stored ≠ f.2
        · rw [if_pos hne]
          simp [hl, hne]
        · rw [if_neg hne]
          simp [hl, hne]

/-- C8: the three change sets are all empty exactly when every tracked
file is unchanged, and in that case the incremental update issues no
store writes and reports zero added/modified/removed files. -/
theorem C8_incremental_noop (parse : String → ParseResult)
    (canon : String → String) (reg : Registry)
    (normalize : String → ParsedRelationship → ParsedRelationship)
    (ledger current : List (String × String)) :
    ((detectChanges ledger current).added = []
      ∧ (detectChanges ledger current).modified = []
      ∧ (detectChanges ledger current).removed = []
      ↔ trackedUnchanged ledger current)
    ∧ ((detectChanges ledger current).added = [] →
        (detectChanges ledger current).modified = [] →
        (detectChanges ledger current).removed = [] →
        updateGraph parse canon reg normalize ledger current
          = (UpdateResults.mk 0 0 0 0 (detectChanges ledger current).total_files,
             [])) := by
  constructor
  · unfold detectChanges trackedUnchanged
    simp only [detectFold_added, detectFold_modified, List.nil_append,
      List.map_eq_nil_iff, List.filter_eq_nil_iff]
    constructor
    · rintro ⟨hadd, hmod, hrem⟩
      constructor
      · intro f hf
        have h1 := hadd f hf
        have h2 := hmod f hf
        rcases hl : ledger.lookup f.1 with _ | stored
        · simp [hl] at h1
        · simp only [hl] at h2
          simp at h2
          rw [h2]
      · intro p hp
        have := hrem p hp
        simpa using this
    · rintro ⟨hcur, hled⟩
      refine ⟨?_, ?_, ?_⟩
      · intro f hf
        simp [hcur f hf]
      · intro f hf
        simp [hcur f hf]
      · intro p hp
        simp [hled p hp]
  · intro hadd hmod hrem
    unfold updateGraph
    dsimp only
    rw [hadd, hmod, hrem]
    simp

/-- Witness for C8: a one-file ledger matching the walk exactly produces
a zero-work update. -/
theorem C8_incremental_noop_witness :
    updateGraph (fun p => ParseResult.mk [] [] "" p [] 0) id []
      (fun _ rel => rel) [("a.py", "h1")] [("a.py", "h1")]
    = (UpdateResults.mk 0 0 0 0 1, []) := by
  have h := (C8_incremental_noop (fun p => ParseResult.mk [] [] "" p [] 0) id []
    (fun _ rel => rel) [("a.py", "h1")] [("a.py", "h1")]).2
    (by decide) (by decide) (by decide)
  exact h.trans (by decide)

lemma pyStartsWith_append (pre suf : String) :
    pyStartsWith (pre ++ suf) pre = true := by
  simp [pyStartsWith, List.isPrefixOf_iff_prefix]

lemma pyStartsWith_append_of (a b c : String)
    (h : pyStartsWith a c = true) : pyStartsWith (a ++ b) c = true := by
  simp only [pyStartsWith, List.isPrefixOf_iff_prefix] at h ⊢
  simp only [String.data_append]
  exact h.trans (List.prefix_append a.data b.data)

/-- The JavaScript stub pass rewrites unresolved targets to stub ids that
still carry the `unresolved:` placeholder prefix. -/
lemma jsExternalStep_keeps_placeholder (ids : List String)
    (rel : ParsedRelationship)
    (h : pyStartsWith rel.to_id "unresolved:" = true) :
    pyStartsWith ((jsExternalStep ids rel).2).to_id "unresolved:" = true := by
  unfold jsExternalStep
  split_ifs with h1 h2 h3
  · exact h
  · unfold jsFunctionStub
    exact pyStartsWith_append_of "unresolved:function_" _ "unresolved:"
      (by decide)
  · unfold jsGenericStub
    dsimp only
    rw [String.append_assoc, String.append_assoc]
    exact pyStartsWith_append "unresolved:" _
  · exact h

/-- C1 counterexample: an import of the external package `@angular/core`
is left with its `unresolved:` placeholder by Pass-2 (no stub id is
substituted) and its relationship insert query is `None` — the edge is
dropped, contradicting the claim that it is rewritten and persisted. -/
theorem C1_counterexample :
    resolveRelationship id
        [("file:/proj/a.ts",
          ParsedEntity.mk "fid" "a.ts" "File" "/proj/a.ts" 0 0 [])]
        (ParsedRelationship.mk "fid" "unresolved:module_@angular/core"
          "IMPORTS" [("import_type", MetaVal.s "module")])
      = ParsedRelationship.mk "fid" "unresolved:module_@angular/core"
          "IMPORTS" [("import_type", MetaVal.s "module")]
    ∧ createRelationshipInsertQuery
        (ParsedRelationship.mk "fid" "unresolved:module_@angular/core"
          "IMPORTS" [("import_type", MetaVal.s "module")])
      = Option.none := by
  exact ⟨by decide, by decide⟩

/-- C1 (amended): a relationship whose target is still unresolved after
Pass-2 keeps its placeholder and is skipped at persist time (its insert
query is `None`, i.e. the edge is dropped); the resolver itself adds no
stub entities; every generated relationship query has non-placeholder
endpoints; and the JavaScript stub pass, which does create stub entities,
rewrites such targets to ids that keep the `unresolved:` prefix, so those
edges are dropped as well. -/
theorem C1_unresolved_edges_dropped :
    (∀ rel : ParsedRelationship,
        pyStartsWith rel.to_id "unresolved:" = true
          ∨ pyStartsWith rel.from_id "unresolved:" = true →
        createRelationshipInsertQuery rel = Option.none)
    ∧ (∀ (canon : String → String) (reg : Registry) (r : ParseResult),
        (resolveParseResult canon reg r).entities = r.entities)
    ∧ (∀ (rel : ParsedRelationship) (q : CreateRel),
        createRelationshipInsertQuery rel = some q →
        pyStartsWith q.from_id "unresolved:" = false
        ∧ pyStartsWith q.to_id "unresolved:" = false)
    ∧ (∀ (ids : List String) (rel : ParsedRelationship),
        pyStartsWith rel.to_id "unresolved:" = true →
        pyStartsWith ((jsExternalStep ids rel).2).to_id "unresolved:" = true
        ∧ createRelationshipInsertQuery ((jsExternalStep ids rel).2)
            = Option.none) := by
  refine ⟨?_, ?_, ?_, ?_⟩
  · intro rel h
    unfold createRelationshipInsertQuery
    rcases h with h | h <;> simp [h]
  · intro canon reg r
    rfl
  · intro rel q h
    unfold createRelationshipInsertQuery at h
    by_cases hc : (pyStartsWith rel.from_id "unresolved:"
        || pyStartsWith rel.to_id "unresolved:") = true
    · rw [if_pos hc] at h
      cases h
    · rw [if_neg hc] at h
      simp only [Bool.or_eq_true, not_or] at hc
      obtain ⟨hf, ht⟩ := hc
      cases h
      exact ⟨by simpa using hf, by simpa using ht⟩
  · intro ids rel h
    have hkeep := jsExternalStep_keeps_placeholder ids rel h
    refine ⟨hkeep, ?_⟩
    unfold createRelationshipInsertQuery
    simp [hkeep]

/-- Witness for C1's amended statement at concrete relationships. -/
theorem C1_unresolved_edges_dropped_witness :
    createRelationshipInsertQuery
        (ParsedRelationship.mk "a" "unresolved:x" "CALLS" []) = Option.none
    ∧ pyStartsWith
        ((jsExternalStep []
          (ParsedRelationship.mk "a" "unresolved:module_@x/y" "IMPORTS"
            [])).2).to_id "unresolved:" = true := by
  refine ⟨C1_unresolved_edges_dropped.1 _ (Or.inl (by decide)), ?_⟩
  exact (C1_unresolved_edges_dropped.2.2.2 []
    (ParsedRelationship.mk "a" "unresolved:module_@x/y" "IMPORTS" [])
    (by decide)).1

lemma rfindList_none_spec :
    ∀ (l : List Char) (c : Char), rfindList l c = Option.none →
      ∀ x ∈ l, x ≠ c := by
  intro l
  induction l with
  | nil => intro c _ x hx; cases hx
  | cons a rest ih =>
      intro c h x hx
      unfold rfindList at h
      rcases hr : rfindList rest c with _ | j
      · rw [hr] at h
        by_cases hac : (a == c) = true
        · rw [if_pos hac] at h
          cases h
        · rw [if_neg hac] at h
          rcases List.mem_cons.mp hx with rfl | hx'
          · simpa using hac
          · exact ih c hr x hx' 
      · rw [hr] at h
        cases h

lemma rfindList_spec :
    ∀ (l : List Char) (c : Char) (i : Nat), rfindList l c = some i →
      i < l.length ∧ l.getD i ' ' = c
        ∧ ∀ j, i < j → j < l.length → l.getD j ' ' ≠ c := by
  intro l
  induction l with
  | nil => intro c i h; cases h
  | cons a rest ih =>
      intro c i h
      unfold rfindList at h
      rcases hr : rfindList rest c with _ | j
      · rw [hr] at h
        by_cases hac : (a == c) = true
        · rw [if_pos hac] at h
          cases h
          refine ⟨by simp, by simpa using hac, ?_⟩
          intro j hj hjl
          obtain ⟨j', rfl⟩ : ∃ j', j = j' + 1 := ⟨j - 1, by omega⟩
          simp only [List.getD_cons_succ]
          have hmem : rest.getD j' ' ' ∈ rest := by
            have hlt : j' < rest.length := by simpa using hjl
            rw [List.getD_eq_getElem rest ' ' hlt]
            exact List.getElem_mem hlt
          exact rfindList_none_spec rest c hr _ hmem
        · rw [if_neg hac] at h
          cases h
      · rw [hr] at h
        cases h
        obtain ⟨hjl, hget, hmax⟩ := ih c j hr
        refine ⟨by simpa using hjl, by simpa using hget, ?_⟩
        intro j2 hj2 hj2l
        obtain ⟨j', rfl⟩ : ∃ j', j2 = j' + 1 := ⟨j2 - 1, by omega⟩
        simp only [List.getD_cons_succ]
        exact hmax j' (by omega) (by simpa using hj2l)

lemma rfindList_isSome_of_mem (l : List Char) (c : Char) (h : c ∈ l) :
    ∃ i, rfindList l c = some i := by
  rcases hr : rfindList l c with _ | i
  · exact absurd rfl (rfindList_none_spec l c hr c h)
  · exact ⟨i, rfl⟩

lemma getD_take_of_lt (l : List Char) (n i : Nat) (d : Char) (h : i < n) :
    (l.take n).getD i d = l.getD i d := by
  simp [List.getD_eq_getElem?_getD, List.getElem?_take, h]

/-- C5 counterexample: the empty string has length `0 ≤ 100` but is not
returned unchanged — it is rewritten to `"unknown"`. -/
theorem C5_counterexample :
    sanitizeExternalName "" = "unknown" ∧ sanitizeExternalName "" ≠ "" := by
  exact ⟨by decide, by decide⟩

/-- C5 (amended): for names longer than 100 characters the sanitised name
is the first `k` characters — `k = 90`, or the position of the last dot
among the first 90 characters when that dot falls within the last 10 of
them — followed by `...` and the first 8 hex digits of the MD5 of the
full name; non-empty names of at most 100 characters are returned
unchanged, the empty name becomes `"unknown"`, and the JavaScript stub
entity ids are derived from the sanitised name. -/
theorem C5_sanitize_truncation :
    (∀ name : String, name.length > 100 →
      ∃ k, 80 ≤ k ∧ k ≤ 90
        ∧ sanitizeExternalName name
            = (⟨name.data.take k⟩ : String) ++ "..."
              ++ (⟨(md5Hex name).data.take 8⟩ : String)
        ∧ (k = 90 ∨ (name.data.getD k ' ' = '.'
            ∧ ∀ j, k < j → j < 90 → name.data.getD j ' ' ≠ '.')))
    ∧ (∀ name : String, name ≠ "" → name.length ≤ 100 →
        sanitizeExternalName name = name)
    ∧ sanitizeExternalName "" = "unknown"
    ∧ (∀ rt nm, (jsGenericStub rt nm).id
        = "unresolved:" ++ rt ++ "_" ++ sanitizeExternalName nm)
    ∧ (∀ nm, (jsFunctionStub nm).id
        = "unresolved:function_" ++ sanitizeExternalName nm) := by
  refine ⟨?_, ?_, by decide, fun rt nm => rfl, fun nm => rfl⟩
  · intro name hlen
    have hne : name ≠ "" := by
      intro h
      rw [h] at hlen
      simp [String.length] at hlen
    have hlen' : 100 < name.data.length := hlen
    have htklen : (name.data.take 90).length = 90 := by
      rw [List.length_take]
      omega
    have htklen90 : (name.take 90).length = 90 := by
      rw [String.take_eq]
      show (name.data.take 90).length = 90
      rw [List.length_take]
      omega
    have hdata90 : (name.take 90).data = name.data.take 90 :=
      String.data_take name 90
    unfold sanitizeExternalName
    rw [if_neg hne, if_pos hlen]
    dsimp only
    have hrfind : strRfind (name.take 90) '.' = rfindList (name.data.take 90) '.' := by
      rw [strRfind, hdata90]
    by_cases hdot :
        ((name.take 90).drop ((name.take 90).length - 10)).data.contains '.' = true
    · have hmemdrop : '.' ∈ (name.data.take 90).drop 80 := by
        have := hdot
        rw [String.data_drop, hdata90, htklen90] at this
        simpa using this
      have hmem : '.' ∈ name.data.take 90 := List.mem_of_mem_drop hmemdrop
      obtain ⟨i, hi⟩ := rfindList_isSome_of_mem (name.data.take 90) '.' hmem
      obtain ⟨hilt, higet, himax⟩ := rfindList_spec (name.data.take 90) '.' i hi
      rw [List.length_take] at hilt
      have hilt90 : i < 90 := by omega
      obtain ⟨j, hjlt, hjget⟩ := List.getElem_of_mem hmemdrop
      have hjlen : 80 + j < (name.data.take 90).length := by
        rw [List.length_drop] at hjlt
        rw [List.length_take]
        omega
      have hdotat : (name.data.take 90).getD (80 + j) ' ' = '.' := by
        rw [List.getD_eq_getElem _ _ hjlen]
        rw [← hjget, List.getElem_drop]
      have h80 : 80 ≤ i := by
        by_contra hcon
        exact absurd hdotat (himax (80 + j) (by omega) hjlen)
      refine ⟨i, h80, by omega, ?_, Or.inr ⟨?_, ?_⟩⟩
      · rw [if_pos hdot, hrfind, hi]
        rw [String.take_eq name 90, String.take_eq (md5Hex name) 8]
        dsimp only
        rw [String.take_eq, List.take_take, Nat.min_eq_left (le_of_lt hilt90)]
      · rw [← getD_take_of_lt name.data 90 i ' ' hilt90]
        exact higet
      · intro j2 hj2 hj2lt
        rw [← getD_take_of_lt name.data 90 j2 ' ' hj2lt]
        exact himax j2 hj2 (by rw [List.length_take]; omega)
    · refine ⟨90, by omega, le_refl 90, ?_, Or.inl rfl⟩
      rw [if_neg hdot]
      rw [String.take_eq name 90, String.take_eq (md5Hex name) 8]
  · intro name hne hle
    unfold sanitizeExternalName
    rw [if_neg hne, if_neg (by omega)]

/-- Witness for C5's amended statement: a 105-character chained name and
a short name. -/
theorem C5_sanitize_truncation_witness :
    (∃ k, 80 ≤ k ∧ k ≤ 90
      ∧ sanitizeExternalName "aaaaaaaaaaaaaaaaaaaaaaaaaaaaaaaaaaaaaaaaaaaaaaaaaaaaaaaaaaaaaaaaaaaaaaaaaaaaaaaaaaaaa.bbbbbbbbbbbbbbbbbbb"
          = (⟨("aaaaaaaaaaaaaaaaaaaaaaaaaaaaaaaaaaaaaaaaaaaaaaaaaaaaaaaaaaaaaaaaaaaaaaaaaaaaaaaaaaaaa.bbbbbbbbbbbbbbbbbbb" : String).data.take k⟩ : String) ++ "..."
            ++ (⟨(md5Hex "aaaaaaaaaaaaaaaaaaaaaaaaaaaaaaaaaaaaaaaaaaaaaaaaaaaaaaaaaaaaaaaaaaaaaaaaaaaaaaaaaaaaa.bbbbbbbbbbbbbbbbbbb").data.take 8⟩ : String)
      ∧ (k = 90 ∨ (("aaaaaaaaaaaaaaaaaaaaaaaaaaaaaaaaaaaaaaaaaaaaaaaaaaaaaaaaaaaaaaaaaaaaaaaaaaaaaaaaaaaaa.bbbbbbbbbbbbbbbbbbb" : String).data.getD k ' ' = '.'
          ∧ ∀ j, k < j → j < 90 → ("aaaaaaaaaaaaaaaaaaaaaaaaaaaaaaaaaaaaaaaaaaaaaaaaaaaaaaaaaaaaaaaaaaaaaaaaaaaaaaaaaaaaa.bbbbbbbbbbbbbbbbbbb" : String).data.getD j ' ' ≠ '.')))
    ∧ sanitizeExternalName "foo" = "foo" :=
  ⟨C5_sanitize_truncation.1 "aaaaaaaaaaaaaaaaaaaaaaaaaaaaaaaaaaaaaaaaaaaaaaaaaaaaaaaaaaaaaaaaaaaaaaaaaaaaaaaaaaaaa.bbbbbbbbbbbbbbbbbbb" (by decide),
   C5_sanitize_truncation.2.1 "foo" (by decide) (by decide)⟩

lemma map_self_of_eq {α : Type} (f : α → α) (l : List α)
    (h : ∀ a ∈ l, f a = a) : l.map f = l := by
  induction l with
  | nil => rfl
  | cons a as ih =>
      simp only [List.map_cons, h a (by simp)]
      rw [ih (fun x hx => h x (by simp [hx]))]

lemma resolveModuleReference_empty (module_path : String) :
    resolveModuleReference [] module_path = Option.none := by
  unfold resolveModuleReference registryLookup
  split_ifs <;> rfl

lemma resolvePatternReference_empty (kindKey : String)
    (canon : String → String) (ref_path : String)
    (component_file_path : Option String) :
    resolvePatternReference kindKey canon [] ref_path component_file_path
      = Option.none := by
  unfold resolvePatternReference
  rw [List.findSome?_eq_none_iff]
  intro pattern _
  rfl

/-- Pass-2 lookups against the empty registry always miss. -/
lemma resolveSymbolReference_empty (canon : String → String) (ref : String)
    (md : List (String × MetaVal))
    (h : pyStartsWith ref "unresolved:" = true) :
    resolveSymbolReference canon [] ref md = Option.none := by
  unfold resolveSymbolReference
  rw [if_neg (by simp [h])]
  dsimp only
  by_cases h1 : pyStartsWith (ref.drop 11) "module_" = true
  · rw [if_pos h1]
    exact resolveModuleReference_empty _
  · rw [if_neg h1]
    by_cases h2 : pyStartsWith (ref.drop 11) "template_" = true
    · rw [if_pos h2]
      exact resolvePatternReference_empty _ _ _ _
    · rw [if_neg h2]
      by_cases h3 : pyStartsWith (ref.drop 11) "style_" = true
      · rw [if_pos h3]
        exact resolvePatternReference_empty _ _ _ _
      · rw [if_neg h3]
        by_cases h4 : pyStartsWith (ref.drop 11) "export_" = true
        · rw [if_pos h4]
        · rw [if_neg h4]
          by_cases h5 : pyStartsWith (ref.drop 11) "external_" = true
          · rw [if_pos h5]
          · rw [if_neg h5]
            rfl

/-- C3 counterexample: in a fresh incremental run the extractor's registry
is empty (`EntityExtractor.__init__`; `_process_changes` never registers
anything and performs no store lookups), so a reference from a reparsed
file to `foo`, defined in an untouched file, keeps its placeholder instead
of resolving to `foo`'s entity id. -/
theorem C3_counterexample :
    (resolveParseResult id incrementalInitialRegistry
        (ParseResult.mk []
          [ParsedRelationship.mk "gid" "unresolved:function_foo" "CALLS" []]
          "h" "a.py" [] 0)).relationships
      = [ParsedRelationship.mk "gid" "unresolved:function_foo" "CALLS" []]
    ∧ "unresolved:function_foo"
        ≠ generate_entity_id "foo" "b.py" 1 "Function" (some 2) "" := by
  exact ⟨by decide, by decide⟩

/-- C3 (amended): an incremental run resolves against the extractor's
in-memory registry as-is; nothing is loaded from the store on a Pass-2
miss, and with the fresh (empty) registry every placeholder stays
unresolved — resolution is the identity on the reparsed results. -/
theorem C3_incremental_registry_not_loaded :
    (∀ (canon : String → String) (ref : String)
        (md : List (String × MetaVal)),
      pyStartsWith ref "unresolved:" = true →
      resolveSymbolReference canon incrementalInitialRegistry ref md
        = Option.none)
    ∧ (∀ (canon : String → String) (results : List ParseResult),
        resolveRelationshipsAll canon incrementalInitialRegistry results
          = results) := by
  constructor
  · intro canon ref md h
    exact resolveSymbolReference_empty canon ref md h
  · intro canon results
    unfold resolveRelationshipsAll
    apply map_self_of_eq
    intro r _
    unfold resolveParseResult
    have hrel : r.relationships.map
        (resolveRelationship canon incrementalInitialRegistry)
        = r.relationships := by
      apply map_self_of_eq
      intro s _
      unfold resolveRelationship incrementalInitialRegistry
      by_cases hu : pyStartsWith s.to_id "unresolved:" = true
      · rw [if_pos hu, resolveSymbolReference_empty canon s.to_id s.metadata hu]
      · rw [if_neg hu]
    rw [hrel]

/-- Witness for C3's amended statement at a concrete placeholder. -/
theorem C3_incremental_registry_not_loaded_witness :
    resolveSymbolReference id incrementalInitialRegistry
      "unresolved:function_foo" [] = Option.none :=
  C3_incremental_registry_not_loaded.1 id "unresolved:function_foo" []
    (by decide)

lemma schemaProperties_no_file_path :
    ∀ (t : String) (props : List String),
      schemaProperties.lookup t = some props → "file_path" ∉ props := by
  intro t props h
  simp only [schemaProperties, List.lookup] at h
  repeat' split at h
  all_goals cases h
  all_goals decide

lemma lookup_eq_none_of_keys {β : Type} (l : List (String × β)) (k : String)
    (h : ∀ p ∈ l, p.1 ≠ k) : List.lookup k l = Option.none := by
  rw [List.lookup_eq_none_iff]
  intro p hp
  have := h p hp
  simp only [bne_iff_ne, ne_eq]
  exact fun hkeq => this hkeq.symm

/-- No branch of `_create_entity_insert_query` ever writes a `file_path`
property: File nodes get `path`, all others `file_id`. -/
lemma entityInsertProps_no_file_path (e : ParsedEntity) :
    List.lookup "file_path" (entityInsertProps e) = Option.none := by
  apply lookup_eq_none_of_keys
  intro p hp
  unfold entityInsertProps at hp
  simp only [List.mem_append] at hp
  rcases hp with ((h1 | h2) | h3) | h4
  · simp only [List.mem_cons, List.mem_singleton] at h1
    rcases h1 with rfl | rfl | h1
    · simp
    · simp
    · simp at h1
  · revert h2
    split
    · intro h2
      simp only [List.mem_singleton] at h2
      subst h2
      simp
    · split
      · split
        · intro h2
          simp only [List.mem_singleton] at h2
          subst h2
          simp
        · intro h2
          simp at h2
      · intro h2
        simp at h2
  · revert h3
    split
    · intro h3
      simp only [List.mem_cons, List.mem_singleton] at h3
      rcases h3 with rfl | rfl | h3
      · simp
      · simp
      · simp at h3
    · split
      · intro h3
        simp only [List.mem_singleton] at h3
        subst h3
        simp
      · intro h3
        simp at h3
  · have hpred := List.of_mem_filter h4
    simp only [Bool.and_eq_true] at hpred
    have hmemallowed : p.1 ∈ (schemaProperties.lookup e.type).getD [] := by
      exact List.mem_of_elem_eq_true hpred.2
    rcases hl : schemaProperties.lookup e.type with _ | props
    · rw [hl] at hmemallowed
      simp at hmemallowed
    · rw [hl] at hmemallowed
      simp only [Option.getD_some] at hmemallowed
      intro hcon
      rw [hcon] at hmemallowed
      exact schemaProperties_no_file_path e.type props hl hmemallowed

/-- The `file_path`-keyed match of the delete pass selects nothing in a
store whose nodes all come from entity insert queries. -/
lemma matchFilePathIds_empty (store : GraphStore)
    (hstore : ∀ n ∈ store.nodes,
      ∃ e : ParsedEntity, n = StoreNode.mk e.type (entityInsertProps e))
    (file_path : String) : matchFilePathIds store file_path = [] := by
  unfold matchFilePathIds
  have hfil : store.nodes.filter
      (fun n => nodeProp n "file_path" == some (MetaVal.s file_path)) = [] := by
    rw [List.filter_eq_nil_iff]
    intro n hn
    obtain ⟨e, rfl⟩ := hstore n hn
    have : nodeProp (StoreNode.mk e.type (entityInsertProps e)) "file_path"
        = Option.none := entityInsertProps_no_file_path e
    simp [this]
  rw [hfil]
  rfl

lemma removeFileFromGraph_id (store : GraphStore)
    (hstore : ∀ n ∈ store.nodes,
      ∃ e : ParsedEntity, n = StoreNode.mk e.type (entityInsertProps e))
    (file_path : String) : removeFileFromGraph store file_path = store := by
  unfold removeFileFromGraph
  rw [matchFilePathIds_empty store hstore file_path]
  rcases store with ⟨nodes, edges⟩
  simp only [List.contains_nil, Bool.or_self, Bool.not_false, List.filter_true]
  congr 1
  rw [List.filter_eq_self]
  intro a _
  split <;> simp

/-- C2 (code bug): the deletion pass of incremental updates matches nodes
on a `file_path` property that the entity insert queries never write
(File nodes carry `path`, all other nodes `file_id`), so it removes no
entity and no edge; in particular after "removing" file `a.py` its File
node is still in the store. -/
theorem C2_deletion_removes_nothing :
    (∀ e : ParsedEntity,
      List.lookup "file_path" (entityInsertProps e) = Option.none)
    ∧ (∀ store : GraphStore,
        (∀ n ∈ store.nodes,
          ∃ e : ParsedEntity, n = StoreNode.mk e.type (entityInsertProps e)) →
        ∀ paths : List String, removeFilesFromGraph store paths = store)
    ∧ (removeFileFromGraph
          (GraphStore.mk
            [StoreNode.mk "File" (entityInsertProps
                (ParsedEntity.mk "fid" "a.py" "File" "a.py" 0 0
                  [("hash", MetaVal.s "h1")])),
             StoreNode.mk "Function" (entityInsertProps
                (ParsedEntity.mk "qid" "f" "Function" "a.py" 1 2
                  [("file_id", MetaVal.s "fid")]))]
            [StoreEdge.mk "fid" "qid" "FILE_CONTAINS_FUNCTION" []])
          "a.py"
        = GraphStore.mk
            [StoreNode.mk "File" (entityInsertProps
                (ParsedEntity.mk "fid" "a.py" "File" "a.py" 0 0
                  [("hash", MetaVal.s "h1")])),
             StoreNode.mk "Function" (entityInsertProps
                (ParsedEntity.mk "qid" "f" "Function" "a.py" 1 2
                  [("file_id", MetaVal.s "fid")]))]
            [StoreEdge.mk "fid" "qid" "FILE_CONTAINS_FUNCTION" []]) := by
  refine ⟨entityInsertProps_no_file_path, ?_, by decide⟩
  intro store hstore paths
  induction paths generalizing store with
  | nil => rfl
  | cons p rest ih =>
      unfold removeFilesFromGraph
      rw [List.foldl_cons, removeFileFromGraph_id store hstore p]
      exact ih store hstore

/-- Witness for C2 at the concrete two-node store. -/
theorem C2_deletion_removes_nothing_witness :
    removeFilesFromGraph
        (GraphStore.mk
          [StoreNode.mk "File" (entityInsertProps
              (ParsedEntity.mk "fid" "a.py" "File" "a.py" 0 0
                [("hash", MetaVal.s "h1")]))]
          [])
        ["a.py"]
      = GraphStore.mk
          [StoreNode.mk "File" (entityInsertProps
              (ParsedEntity.mk "fid" "a.py" "File" "a.py" 0 0
                [("hash", MetaVal.s "h1")]))]
          [] := by
  apply C2_deletion_removes_nothing.2.1
  intro n hn
  simp only [List.mem_singleton] at hn
  exact ⟨ParsedEntity.mk "fid" "a.py" "File" "a.py" 0 0
    [("hash", MetaVal.s "h1")], hn⟩

lemma toDigitsCore_acc (b : Nat) :
    ∀ (f n : Nat) (acc : List Char),
      Nat.toDigitsCore b f n acc = Nat.toDigitsCore b f n [] ++ acc := by
  intro f
  induction f with
  | zero => intro n acc; rfl
  | succ f ih =>
      intro n acc
      unfold Nat.toDigitsCore
      by_cases h0 : n / b = 0
      · rw [if_pos h0, if_pos h0]
        rfl
      · rw [if_neg h0, if_neg h0]
        rw [ih (n / b) [Nat.digitChar (n % b)],
          ih (n / b) (Nat.digitChar (n % b) :: acc)]
        simp

lemma digitChar_val (d : Nat) (h : d < 10) :
    (Nat.digitChar d).toNat - 48 = d := by
  interval_cases d <;> rfl

lemma digitChar_ne_colon (d : Nat) (h : d < 10) : Nat.digitChar d ≠ ':' := by
  interval_cases d <;> decide

lemma parse_toDigitsCore :
    ∀ (f n : Nat), n < f →
      parseDigits (Nat.toDigitsCore 10 f n []) = n := by
  intro f
  induction f with
  | zero => intro n h; omega
  | succ f ih =>
      intro n h
      unfold Nat.toDigitsCore
      by_cases h0 : n / 10 = 0
      · rw [if_pos h0]
        have hlt : n < 10 := (Nat.div_eq_zero_iff (by omega)).mp h0
        unfold parseDigits
        simp only [List.foldl_cons, List.foldl_nil]
        rw [digitChar_val (n % 10) (Nat.mod_lt n (by omega))]
        omega
      · rw [if_neg h0]
        rw [toDigitsCore_acc 10 f (n / 10) [Nat.digitChar (n % 10)]]
        have hrec : n / 10 < f := by
          have h10 : 10 ≤ n := by
            by_contra hc
            exact h0 (Nat.div_eq_of_lt (by omega))
          have := Nat.div_lt_self (by omega : 0 < n) (by omega : 1 < 10)
          omega
        unfold parseDigits
        rw [List.foldl_append]
        simp only [List.foldl_cons, List.foldl_nil]
        have := ih (n / 10) hrec
        unfold parseDigits at this
        rw [this, digitChar_val (n % 10) (Nat.mod_lt n (by omega))]
        omega

lemma natRepr_inj (m n : Nat) (h : Nat.repr m = Nat.repr n) : m = n := by
  unfold Nat.repr at h
  have hdata : Nat.toDigits 10 m = Nat.toDigits 10 n := by
    have := congrArg String.data h
    simpa [List.asString] using this
  unfold Nat.toDigits at hdata
  have hm := parse_toDigitsCore (m + 1) m (by omega)
  have hn := parse_toDigitsCore (n + 1) n (by omega)
  rw [← hm, ← hn, hdata]

lemma natRepr_ne_nil (n : Nat) : (Nat.repr n).data ≠ [] := by
  unfold Nat.repr Nat.toDigits
  have hasString : ((Nat.toDigitsCore 10 (n + 1) n []).asString).data
      = Nat.toDigitsCore 10 (n + 1) n [] := rfl
  rw [hasString]
  unfold Nat.toDigitsCore
  by_cases h0 : n / 10 = 0
  · rw [if_pos h0]
    simp
  · rw [if_neg h0]
    rw [toDigitsCore_acc 10 n (n / 10) [Nat.digitChar (n % 10)]]
    simp

lemma toDigitsCore_chars :
    ∀ (f n : Nat) (acc : List Char), (∀ c ∈ acc, c ≠ ':') →
      ∀ c ∈ Nat.toDigitsCore 10 f n acc, c ≠ ':' := by
  intro f
  induction f with
  | zero => intro n acc hacc; exact hacc
  | succ f ih =>
      intro n acc hacc c hc
      unfold Nat.toDigitsCore at hc
      by_cases h0 : n / 10 = 0
      · rw [if_pos h0] at hc
        rcases List.mem_cons.mp hc with rfl | hc2
        · exact digitChar_ne_colon (n % 10) (Nat.mod_lt n (by omega))
        · exact hacc c hc2
      · rw [if_neg h0] at hc
        refine ih (n / 10) (Nat.digitChar (n % 10) :: acc) ?_ c hc
        intro c2 hc2
        rcases List.mem_cons.mp hc2 with rfl | hc3
        · exact digitChar_ne_colon (n % 10) (Nat.mod_lt n (by omega))
        · exact hacc c2 hc3

lemma natRepr_no_colon (n : Nat) : ':' ∉ (Nat.repr n).data := by
  intro hmem
  have : ((Nat.toDigits 10 n).asString).data = Nat.toDigits 10 n := rfl
  unfold Nat.repr at hmem
  rw [this] at hmem
  exact toDigitsCore_chars (n + 1) n [] (by intro c hc; cases hc) ':' hmem rfl

lemma colon_split :
    ∀ {l1 l2 m1 m2 : List Char}, ':' ∉ l1 → ':' ∉ m1 →
      l1 ++ ':' :: l2 = m1 ++ ':' :: m2 → l1 = m1 ∧ l2 = m2 := by
  intro l1
  induction l1 with
  | nil =>
      intro l2 m1 m2 _ hm1 h
      cases m1 with
      | nil => simpa using h
      | cons b bs =>
          simp only [List.nil_append, List.cons_append, List.cons.injEq] at h
          exfalso
          apply hm1
          rw [← h.1]
          simp
  | cons a as ih =>
      intro l2 m1 m2 hl1 hm1 h
      cases m1 with
      | nil =>
          simp only [List.cons_append, List.nil_append, List.cons.injEq] at h
          exfalso
          apply hl1
          rw [h.1]
          simp
      | cons b bs =>
          simp only [List.cons_append, List.cons.injEq] at h
          obtain ⟨rfl, h2⟩ := h
          have hl1' : ':' ∉ as := by
            simp only [List.mem_cons, not_or] at hl1
            exact hl1.2
          have hm1' : ':' ∉ bs := by
            simp only [List.mem_cons, not_or] at hm1
            exact hm1.2
          have := ih hl1' hm1' h2
          exact ⟨by rw [this.1], this.2⟩

lemma strFoldlAppend (l : List String) :
    ∀ acc : String, l.foldl (· ++ ·) acc = acc ++ l.foldl (· ++ ·) "" := by
  induction l with
  | nil => intro acc; simp
  | cons b bs ih =>
      intro acc
      simp only [List.foldl_cons]
      rw [ih (acc ++ b), ih (("" : String) ++ b)]
      simp [String.append_assoc]

lemma intercalate_go_eq (s : String) :
    ∀ (bs : List String) (acc : String),
      String.intercalate.go acc s bs
        = acc ++ String.join (bs.map (fun b => s ++ b)) := by
  intro bs
  induction bs with
  | nil =>
      intro acc
      simp [String.intercalate.go, String.join]
  | cons b bs ih =>
      intro acc
      rw [String.intercalate.go, ih (acc ++ s ++ b)]
      unfold String.join
      simp only [List.map_cons, List.foldl_cons]
      rw [strFoldlAppend (bs.map (fun b => s ++ b)) (("" : String) ++ (s ++ b))]
      simp [String.append_assoc, String.empty_append]

lemma intercalate_eq_join (s : String) (a : String) (as : List String) :
    String.intercalate s (a :: as)
      = a ++ String.join (as.map (fun b => s ++ b)) := by
  rw [String.intercalate, intercalate_go_eq]

lemma toString_nat_eq_repr (n : Nat) : toString n = Nat.repr n := rfl

lemma colon_data : (":" : String).data = [':'] := rfl

/-- Data of the identifier when `line_end` is active and `parent_id` empty. -/
lemma identifierOf_data_A (name fp t par : String) (ls le : Nat)
    (hle : le ≠ 0) (hne : le ≠ ls) (hpar : par = "") :
    (identifierOf name fp ls t (some le) par).data
      = (asPosix fp).data
        ++ ':' :: ((if t = "" then "unknown" else t).data
        ++ ':' :: ((if name = "" then "anonymous" else name).data
        ++ ':' :: ((Nat.repr ls).data
        ++ ':' :: (Nat.repr le).data))) := by
  subst hpar
  unfold identifierOf identifierParts
  dsimp only
  rw [if_pos (show le ≠ 0 ∧ le ≠ ls from ⟨hle, hne⟩)]
  have hp : (if ("" : String) = "" then ([] : List String)
      else ["parent:" ++ ""]) = [] := if_pos rfl
  rw [hp, List.append_nil]
  simp only [List.cons_append, List.nil_append]
  rw [intercalate_eq_join]
  simp [String.join, strFoldlAppend, String.data_append, colon_data,
    toString_nat_eq_repr, String.append_assoc]

/-- Data of the identifier when `line_end` is active and `parent_id` non-empty. -/
lemma identifierOf_data_B (name fp t par : String) (ls le : Nat)
    (hle : le ≠ 0) (hne : le ≠ ls) (hpar : par ≠ "") :
    (identifierOf name fp ls t (some le) par).data
      = (asPosix fp).data
        ++ ':' :: ((if t = "" then "unknown" else t).data
        ++ ':' :: ((if name = "" then "anonymous" else name).data
        ++ ':' :: ((Nat.repr ls).data
        ++ ':' :: ((Nat.repr le).data
        ++ ':' :: ("parent:" ++ par).data)))) := by
  unfold identifierOf identifierParts
  dsimp only
  rw [if_pos (show le ≠ 0 ∧ le ≠ ls from ⟨hle, hne⟩), if_neg hpar]
  simp only [List.cons_append, List.nil_append]
  rw [intercalate_eq_join]
  simp [String.join, strFoldlAppend, String.data_append, colon_data,
    toString_nat_eq_repr, String.append_assoc]

/-- Data of the identifier when `line_end` is absent and `parent_id` empty. -/
lemma identifierOf_data_C (name fp t par : String) (ls : Nat)
    (hpar : par = "") :
    (identifierOf name fp ls t Option.none par).data
      = (asPosix fp).data
        ++ ':' :: ((if t = "" then "unknown" else t).data
        ++ ':' :: ((if name = "" then "anonymous" else name).data
        ++ ':' :: (Nat.repr ls).data)) := by
  subst hpar
  unfold identifierOf identifierParts
  dsimp only
  have hp : (if ("" : String) = "" then ([] : List String)
      else ["parent:" ++ ""]) = [] := if_pos rfl
  rw [hp, List.append_nil, List.append_nil]
  rw [intercalate_eq_join]
  simp [String.join, strFoldlAppend, String.data_append, colon_data,
    toString_nat_eq_repr, String.append_assoc]

/-- Data of the identifier when `line_end` is absent and `parent_id` non-empty. -/
lemma identifierOf_data_D (name fp t par : String) (ls : Nat)
    (hpar : par ≠ "") :
    (identifierOf name fp ls t Option.none par).data
      = (asPosix fp).data
        ++ ':' :: ((if t = "" then "unknown" else t).data
        ++ ':' :: ((if name = "" then "anonymous" else name).data
        ++ ':' :: ((Nat.repr ls).data
        ++ ':' :: ("parent:" ++ par).data))) := by
  unfold identifierOf identifierParts
  dsimp only
  rw [if_neg hpar, List.append_nil]
  simp only [List.cons_append, List.nil_append]
  rw [intercalate_eq_join]
  simp [String.join, strFoldlAppend, String.data_append, colon_data,
    toString_nat_eq_repr, String.append_assoc]

/-- C4 counterexample: `python.py`'s `_generate_id` does not hash the claimed
tuple.  A method of a class `C` and a function nested inside a function `C`
(different parent context, same file, type, name and line) produce the same
context join — empty stack slots are dropped before joining — and hence the
same MD5 entity id, so parent context does not always distinguish ids. -/
theorem C4_counterexample :
    pyIdentifier "a.py" "a" ["C"] [] "function" "f" 10
      = pyIdentifier "a.py" "a" [] ["C"] "function" "f" 10
    ∧ py_generate_id "a.py" "a" ["C"] [] "function" "f" 10
      = py_generate_id "a.py" "a" [] ["C"] "function" "f" 10 :=
  ⟨by decide, by decide⟩

/-- C4: `BaseParser._generate_entity_id` is the SHA-256 hash of the
colon-joined tuple (posix-normalized path, kind, name, line_start, line_end
when present and distinct from line_start, parent marker when present), a
pure function of the tuple, so byte-identical input yields identical ids;
the joined identifier is distinct for sibling entities that differ only in
line range (whether line_end is active on both, on neither, or on one) or
only in parent context (with or without an active line_end), and a concrete
sibling pair's SHA-256 ids differ.  The Python parser instead derives ids
with `_generate_id`, MD5 of the context join, which hashes neither line_end
nor a parent id. -/
theorem C4_entity_id
    (name fp t par par' mod : String) (cs fs : List String)
    (ls le ls' le' line : Nat)
    (h1 : le ≠ 0) (h2 : le ≠ ls) (h3 : le' ≠ 0) (h4 : le' ≠ ls')
    (h5 : ls ≠ ls' ∨ le ≠ le') (h6 : par' ≠ "") (h7 : ls ≠ ls') :
    generate_entity_id name fp ls t (some le) par
        = sha256Hex (String.intercalate ":"
            (identifierParts name fp ls t (some le) par))
    ∧ py_generate_id fp mod cs fs t name line
        = md5Hex (pyIdentifier fp mod cs fs t name line)
    ∧ identifierOf name fp ls t (some le) ""
        ≠ identifierOf name fp ls' t (some le') ""
    ∧ identifierOf name fp ls t Option.none ""
        ≠ identifierOf name fp ls' t Option.none ""
    ∧ identifierOf name fp ls t (some le) ""
        ≠ identifierOf name fp ls' t Option.none ""
    ∧ identifierOf name fp ls t (some le) ""
        ≠ identifierOf name fp ls t (some le) par'
    ∧ identifierOf name fp ls t Option.none ""
        ≠ identifierOf name fp ls t Option.none par'
    ∧ (par ≠ "" → par ≠ par' →
        identifierOf name fp ls t (some le) par
          ≠ identifierOf name fp ls t (some le) par')
    ∧ (par ≠ "" → par ≠ par' →
        identifierOf name fp ls t Option.none par
          ≠ identifierOf name fp ls t Option.none par')
    ∧ generate_entity_id "f" "a.py" 1 "function" (some 2) ""
        ≠ generate_entity_id "f" "a.py" 3 "function" (some 4) "" := by
  refine ⟨rfl, rfl, ?_, ?_, ?_, ?_, ?_, ?_, ?_, by decide⟩
  · intro h
    have hd := congrArg String.data h
    rw [identifierOf_data_A name fp t "" ls le h1 h2 rfl,
        identifierOf_data_A name fp t "" ls' le' h3 h4 rfl] at hd
    simp only [List.append_right_inj, List.cons.injEq, eq_self_iff_true,
      true_and] at hd
    obtain ⟨hls, hlee⟩ :=
      colon_split (natRepr_no_colon ls) (natRepr_no_colon ls') hd
    rcases h5 with h5 | h5
    · exact h5 (natRepr_inj _ _ (String.ext hls))
    · exact h5 (natRepr_inj _ _ (String.ext hlee))
  · intro h
    have hd := congrArg String.data h
    rw [identifierOf_data_C name fp t "" ls rfl,
        identifierOf_data_C name fp t "" ls' rfl] at hd
    simp only [List.append_right_inj, List.cons.injEq, eq_self_iff_true,
      true_and] at hd
    exact h7 (natRepr_inj _ _ (String.ext hd))
  · intro h
    have hd := congrArg String.data h
    rw [identifierOf_data_A name fp t "" ls le h1 h2 rfl,
        identifierOf_data_C name fp t "" ls' rfl] at hd
    simp only [List.append_right_inj, List.cons.injEq, eq_self_iff_true,
      true_and] at hd
    have hmem : ':' ∈ (Nat.repr ls').data := by
      rw [← hd]; simp
    exact natRepr_no_colon ls' hmem
  · intro h
    have hd := congrArg String.data h
    rw [identifierOf_data_A name fp t "" ls le h1 h2 rfl,
        identifierOf_data_B name fp t par' ls le h1 h2 h6] at hd
    simp only [List.append_right_inj, List.cons.injEq, eq_self_iff_true,
      true_and] at hd
    have hlen := congrArg List.length hd
    simp only [List.length_append, List.length_cons] at hlen
    omega
  · intro h
    have hd := congrArg String.data h
    rw [identifierOf_data_C name fp t "" ls rfl,
        identifierOf_data_D name fp t par' ls h6] at hd
    simp only [List.append_right_inj, List.cons.injEq, eq_self_iff_true,
      true_and] at hd
    have hlen := congrArg List.length hd
    simp only [List.length_append, List.length_cons] at hlen
    omega
  · intro hp hpp h
    have hd := congrArg String.data h
    rw [identifierOf_data_B name fp t par ls le h1 h2 hp,
        identifierOf_data_B name fp t par' ls le h1 h2 h6] at hd
    simp only [List.append_right_inj, List.cons.injEq, eq_self_iff_true,
      true_and, String.data_append] at hd
    exact hpp (String.ext hd)
  · intro hp hpp h
    have hd := congrArg String.data h
    rw [identifierOf_data_D name fp t par ls hp,
        identifierOf_data_D name fp t par' ls h6] at hd
    simp only [List.append_right_inj, List.cons.injEq, eq_self_iff_true,
      true_and, String.data_append] at hd
    exact hpp (String.ext hd)

theorem C4_entity_id_witness :
    identifierOf "f" "a.py" 1 "function" (some 2) ""
      ≠ identifierOf "f" "a.py" 3 "function" (some 4) "" :=
  (C4_entity_id "f" "a.py" "function" "" "p" "m" [] [] 1 2 3 4 7
    (by decide) (by decide) (by decide) (by decide)
    (Or.inl (by decide)) (by decide) (by decide)).2.2.1

end CodeBased
